import Mathlib

/-!
Shallow embedding of the credential / token-lifecycle subsystem of the
`prusa-connect` SDK client (`src/prusa/connect/client/auth.py`), together
with proofs settling the frozen claims about it.

Modelling conventions:
* Python byte strings are `List Nat` (each entry `< 256` where it matters).
* Python text strings are Lean `String` / `List Char`.
* Python `datetime` values are microsecond counts (`Int`) tagged with
  timezone-awareness; "now" is passed explicitly (one naive clock reading
  and one UTC clock reading).
* Fallible Python code (exceptions) is `Option` / `Except`.
* `json.loads` is modelled by an executable recursive-descent parser over
  characters.  JSON numbers are modelled as integers only (the claims and
  all tokens in this development use integer claims; floating point is out
  of scope of the embedding).
-/

set_option maxRecDepth 8000

namespace PrusaAuth

/-! ## Python string primitives -/

/-- Substring containment, Python's `needle in haystack` on `str`. -/
def strContainsL (haystack needle : List Char) : Bool :=
  match haystack with
  | [] => needle.isEmpty
  | _ :: t => needle.isPrefixOf haystack || strContainsL t needle

/-- Python `needle in haystack` for `String`s. -/
def pyIn (needle haystack : String) : Bool :=
  strContainsL haystack.data needle.data

/-- The characters for which Python's `str.isspace` is true (these drive
`str.split()` with no argument). -/
def pyIsSpace (c : Char) : Bool :=
  c.toNat ∈ [9, 10, 11, 12, 13, 28, 29, 30, 31, 32, 133, 160,
              0x1680, 0x2000, 0x2001, 0x2002, 0x2003, 0x2004, 0x2005,
              0x2006, 0x2007, 0x2008, 0x2009, 0x200A, 0x2028, 0x2029,
              0x202F, 0x205F, 0x3000]

/-- Worker for Python's `str.split()` (split on runs of whitespace,
dropping empty words).  `acc` is the current word, reversed. -/
def pySplitWsAux : List Char → List Char → List (List Char)
  | [], acc => if acc.isEmpty then [] else [acc.reverse]
  | c :: rest, acc =>
    if pyIsSpace c then
      if acc.isEmpty then pySplitWsAux rest []
      else acc.reverse :: pySplitWsAux rest []
    else pySplitWsAux rest (c :: acc)

/-- Python `s.split()` (no separator argument). -/
def pySplitWs (s : String) : List String :=
  (pySplitWsAux s.data []).map List.asString

/-- `" ".join(words)` at the character level. -/
def joinSpaceL : List (List Char) → List Char
  | [] => []
  | [w] => w
  | w :: rest => w ++ ' ' :: joinSpaceL rest

/-- Python `" ".join(words)`. -/
def joinSpace (l : List String) : String :=
  (joinSpaceL (l.map String.data)).asString

/-- Python `s.rstrip("=")` at the character level. -/
def rstripEqL (s : List Char) : List Char :=
  (s.reverse.dropWhile (· == '=')).reverse

/-- Worker for Python's `s.split(".")`; `acc` is the current piece,
reversed. -/
def splitDotAux : List Char → List Char → List (List Char)
  | [], acc => [acc.reverse]
  | c :: rest, acc =>
    if c = '.' then acc.reverse :: splitDotAux rest []
    else splitDotAux rest (c :: acc)

/-- Python `s.split(".")` (e.g. `""` gives `[""]`, `"a..b"` gives
`["a", "", "b"]`). -/
def pySplitDot (s : String) : List String :=
  (splitDotAux s.data []).map List.asString

/-! ## Base64 (Python `base64` module semantics)

`base64.b64decode(s)` (with the default `validate=False`, used by
`_decode_jwt`) follows CPython's `binascii.a2b_base64` in non-strict
mode: characters outside the standard alphabet and `=` are discarded;
a `=` seen with at least two sixbit values buffered and enough total
padding terminates the decode (any remaining input is discarded);
at end of input a partially filled quad is an error. -/

/-- The standard base64 alphabet. -/
def b64StdAlphabet : List Char :=
  "ABCDEFGHIJKLMNOPQRSTUVWXYZabcdefghijklmnopqrstuvwxyz0123456789+/".data

/-- The URL-safe base64 alphabet (RFC 4648 §5). -/
def b64UrlAlphabet : List Char :=
  "ABCDEFGHIJKLMNOPQRSTUVWXYZabcdefghijklmnopqrstuvwxyz0123456789-_".data

/-- Value of a character in the *standard* base64 alphabet, `none` for
everything else (`-` and `_` included: they are not translated). -/
def b64StdVal (c : Char) : Option Nat :=
  if 'A' ≤ c ∧ c ≤ 'Z' then some (c.toNat - 65)
  else if 'a' ≤ c ∧ c ≤ 'z' then some (c.toNat - 97 + 26)
  else if '0' ≤ c ∧ c ≤ '9' then some (c.toNat - 48 + 52)
  else if c = '+' then some 62
  else if c = '/' then some 63
  else none

/-- Decode a full quad of sixbit values into three bytes. -/
def b64DecQuad (q0 q1 q2 q3 : Nat) : List Nat :=
  [q0 * 4 + q1 / 16, (q1 % 16) * 16 + q2 / 4, (q2 % 4) * 64 + q3]

/-- Decode a final partial quad (2 or 3 sixbit values) into 1 or 2 bytes. -/
def b64DecPartial : List Nat → List Nat
  | [q0, q1] => [q0 * 4 + q1 / 16]
  | [q0, q1, q2] => [q0 * 4 + q1 / 16, (q1 % 16) * 16 + q2 / 4]
  | _ => []

/-- The `binascii.a2b_base64` loop in non-strict mode.  `quad` holds the
buffered sixbit values (at most three), `pads` counts the `=` characters
seen since the last data character. -/
def a2bBase64Loop : List Char → List Nat → Nat → Option (List Nat)
  | [], quad, _ =>
    if quad.isEmpty then some [] else none
  | c :: rest, quad, pads =>
    if c = '=' then
      if quad.length ≥ 2 ∧ quad.length + (pads + 1) ≥ 4 then
        some (b64DecPartial quad)
      else a2bBase64Loop rest quad (pads + 1)
    else
      match b64StdVal c with
      | none => a2bBase64Loop rest quad pads
      | some v =>
        match quad with
        | [q0, q1, q2] =>
          (b64DecQuad q0 q1 q2 v ++ ·) <$> a2bBase64Loop rest [] 0
        | _ => a2bBase64Loop rest (quad ++ [v]) 0

/-- Python `base64.b64decode(s)` with `validate=False`. -/
def pyB64DecodeL (s : List Char) : Option (List Nat) :=
  a2bBase64Loop s [] 0

/-- Python `base64.b64decode(s)` on a `String`. -/
def pyB64Decode (s : String) : Option (List Nat) :=
  pyB64DecodeL s.data

/-- Encode three input bytes as four alphabet characters.  (The sixbit
indices carry explicit `%` bounds; for genuine bytes `< 256` they change
nothing.) -/
def b64EncGroup (alpha : List Char) (b1 b2 b3 : Nat) : List Char :=
  [alpha.getD (b1 / 4 % 64) 'A',
   alpha.getD ((b1 % 4) * 16 + b2 / 16 % 16) 'A',
   alpha.getD ((b2 % 16) * 4 + b3 / 64 % 4) 'A',
   alpha.getD (b3 % 64) 'A']

/-- Base64-encode a byte list over the given alphabet, emitting the usual
trailing `=` padding (as `base64.b64encode` / `base64.urlsafe_b64encode`). -/
def b64EncodeChunks (alpha : List Char) : List Nat → List Char
  | [] => []
  | [b1] =>
    [alpha.getD (b1 / 4 % 64) 'A', alpha.getD ((b1 % 4) * 16) 'A', '=', '=']
  | [b1, b2] =>
    [alpha.getD (b1 / 4 % 64) 'A', alpha.getD ((b1 % 4) * 16 + b2 / 16 % 16) 'A',
     alpha.getD ((b2 % 16) * 4) 'A', '=']
  | b1 :: b2 :: b3 :: rest => b64EncGroup alpha b1 b2 b3 ++ b64EncodeChunks alpha rest

/-- `base64.urlsafe_b64encode(bs).decode("utf-8")`. -/
def urlsafeB64Encode (bs : List Nat) : List Char :=
  b64EncodeChunks b64UrlAlphabet bs

/-- `base64.urlsafe_b64encode(bs).decode("utf-8").rstrip("=")`. -/
def urlsafeB64EncodeNoPad (bs : List Nat) : List Char :=
  rstripEqL (urlsafeB64Encode bs)

/-! ## UTF-8 (Python `bytes.decode("utf-8")` / `str.encode`) -/

/-- Is `b` a UTF-8 continuation byte? -/
def isUtf8Cont (b : Nat) : Bool := 0x80 ≤ b ∧ b < 0xC0

/-- Strict UTF-8 decoding of a byte list, as Python's
`bytes.decode("utf-8")`: overlong encodings, surrogates, code points above
`0x10FFFF` and stray bytes are rejected. -/
def utf8DecodeL : List Nat → Option (List Char)
  | [] => some []
  | b :: rest =>
    if b < 0x80 then (Char.ofNat b :: ·) <$> utf8DecodeL rest
    else if b < 0xC2 then none
    else if b < 0xE0 then
      match rest with
      | b2 :: rest2 =>
        if isUtf8Cont b2 then
          (Char.ofNat ((b - 0xC0) * 64 + (b2 - 0x80)) :: ·) <$> utf8DecodeL rest2
        else none
      | [] => none
    else if b < 0xF0 then
      match rest with
      | b2 :: b3 :: rest3 =>
        if isUtf8Cont b2 ∧ isUtf8Cont b3 then
          let cp := (b - 0xE0) * 4096 + (b2 - 0x80) * 64 + (b3 - 0x80)
          if cp < 0x800 ∨ (0xD800 ≤ cp ∧ cp < 0xE000) then none
          else (Char.ofNat cp :: ·) <$> utf8DecodeL rest3
        else none
      | _ => none
    else if b < 0xF5 then
      match rest with
      | b2 :: b3 :: b4 :: rest4 =>
        if isUtf8Cont b2 ∧ isUtf8Cont b3 ∧ isUtf8Cont b4 then
          let cp := (b - 0xF0) * 262144 + (b2 - 0x80) * 4096 +
                    (b3 - 0x80) * 64 + (b4 - 0x80)
          if cp < 0x10000 ∨ cp > 0x10FFFF then none
          else (Char.ofNat cp :: ·) <$> utf8DecodeL rest4
        else none
      | _ => none
    else none

/-- UTF-8 encoding of one character. -/
def utf8EncodeChar (c : Char) : List Nat :=
  let n := c.toNat
  if n < 0x80 then [n]
  else if n < 0x800 then [0xC0 + n / 64, 0x80 + n % 64]
  else if n < 0x10000 then [0xE0 + n / 4096, 0x80 + n / 64 % 64, 0x80 + n % 64]
  else [0xF0 + n / 262144, 0x80 + n / 4096 % 64, 0x80 + n / 64 % 64, 0x80 + n % 64]

/-- Python `s.encode("utf-8")`. -/
def utf8EncodeL (s : List Char) : List Nat :=
  (s.map utf8EncodeChar).flatten

/-! ## JSON (Python `json.loads` semantics)

JSON numbers are modelled as integers only; a fraction, an exponent, or
one of the non-standard literals `NaN`/`Infinity` makes the model parser
fail (floating point is outside the scope of the embedding — no claim in
this development involves a non-integer number). -/

/-- A JSON value.  Objects keep their members in source order; Python's
`dict` semantics (last duplicate key wins) are reflected by `jsonGet`. -/
inductive JVal where
  | null
  | bool (b : Bool)
  | num (n : Int)
  | str (s : String)
  | arr (elems : List JVal)
  | obj (members : List (String × JVal))
  deriving Repr

mutual

/-- Decidable equality on JSON values (written by hand: the automatic
deriving does not handle the nested `List` occurrences). -/
def jvalDecEq : (a b : JVal) → Decidable (a = b)
  | .null, .null => isTrue rfl
  | .bool x, .bool y =>
    match decEq x y with
    | isTrue h => isTrue (by rw [h])
    | isFalse h => isFalse (by intro hh; injection hh; contradiction)
  | .num x, .num y =>
    match decEq x y with
    | isTrue h => isTrue (by rw [h])
    | isFalse h => isFalse (by intro hh; injection hh; contradiction)
  | .str x, .str y =>
    match decEq x y with
    | isTrue h => isTrue (by rw [h])
    | isFalse h => isFalse (by intro hh; injection hh; contradiction)
  | .arr xs, .arr ys =>
    match jvalListDecEq xs ys with
    | isTrue h => isTrue (by rw [h])
    | isFalse h => isFalse (by intro hh; injection hh; contradiction)
  | .obj m1, .obj m2 =>
    match jvalMembersDecEq m1 m2 with
    | isTrue h => isTrue (by rw [h])
    | isFalse h => isFalse (by intro hh; injection hh; contradiction)
  | .null, .bool _ => isFalse nofun
  | .null, .num _ => isFalse nofun
  | .null, .str _ => isFalse nofun
  | .null, .arr _ => isFalse nofun
  | .null, .obj _ => isFalse nofun
  | .bool _, .null => isFalse nofun
  | .bool _, .num _ => isFalse nofun
  | .bool _, .str _ => isFalse nofun
  | .bool _, .arr _ => isFalse nofun
  | .bool _, .obj _ => isFalse nofun
  | .num _, .null => isFalse nofun
  | .num _, .bool _ => isFalse nofun
  | .num _, .str _ => isFalse nofun
  | .num _, .arr _ => isFalse nofun
  | .num _, .obj _ => isFalse nofun
  | .str _, .null => isFalse nofun
  | .str _, .bool _ => isFalse nofun
  | .str _, .num _ => isFalse nofun
  | .str _, .arr _ => isFalse nofun
  | .str _, .obj _ => isFalse nofun
  | .arr _, .null => isFalse nofun
  | .arr _, .bool _ => isFalse nofun
  | .arr _, .num _ => isFalse nofun
  | .arr _, .str _ => isFalse nofun
  | .arr _, .obj _ => isFalse nofun
  | .obj _, .null => isFalse nofun
  | .obj _, .bool _ => isFalse nofun
  | .obj _, .num _ => isFalse nofun
  | .obj _, .str _ => isFalse nofun
  | .obj _, .arr _ => isFalse nofun

/-- Decidable equality on lists of JSON values. -/
def jvalListDecEq : (a b : List JVal) → Decidable (a = b)
  | [], [] => isTrue rfl
  | [], _ :: _ => isFalse nofun
  | _ :: _, [] => isFalse nofun
  | x :: xs, y :: ys =>
    match jvalDecEq x y with
    | isFalse h => isFalse (by intro hh; injection hh; contradiction)
    | isTrue h1 =>
      match jvalListDecEq xs ys with
      | isTrue h2 => isTrue (by rw [h1, h2])
      | isFalse h => isFalse (by intro hh; injection hh; contradiction)

/-- Decidable equality on JSON object member lists. -/
def jvalMembersDecEq : (a b : List (String × JVal)) → Decidable (a = b)
  | [], [] => isTrue rfl
  | [], _ :: _ => isFalse nofun
  | _ :: _, [] => isFalse nofun
  | (k1, v1) :: t1, (k2, v2) :: t2 =>
    match decEq k1 k2 with
    | isFalse h => isFalse (by intro hh; injection hh with h1 h2; injection h1; contradiction)
    | isTrue hk =>
      match jvalDecEq v1 v2 with
      | isFalse h => isFalse (by intro hh; injection hh with h1 h2; injection h1; contradiction)
      | isTrue hv =>
        match jvalMembersDecEq t1 t2 with
        | isTrue ht => isTrue (by rw [hk, hv, ht])
        | isFalse h => isFalse (by intro hh; injection hh; contradiction)

end

instance : DecidableEq JVal := jvalDecEq

/-- Dictionary lookup with Python `dict` semantics: the last occurrence
of a duplicated key wins. -/
def jsonGet (members : List (String × JVal)) (k : String) : Option JVal :=
  (members.reverse.find? (fun kv => kv.1 = k)).map (·.2)

/-- Setting a key in a dictionary; with `jsonGet` being last-wins,
appending implements Python's `d[k] = v`. -/
def jsonSet (members : List (String × JVal)) (k : String) (v : JVal) :
    List (String × JVal) :=
  members ++ [(k, v)]

/-- The JSON whitespace characters accepted by `json.loads`. -/
def jsonWsChar (c : Char) : Bool := c = ' ' ∨ c = '\t' ∨ c = '\n' ∨ c = '\r'

/-- Skip JSON whitespace. -/
def skipJsonWs (s : List Char) : List Char := s.dropWhile jsonWsChar

/-- Value of a hexadecimal digit. -/
def hexVal (c : Char) : Option Nat :=
  if '0' ≤ c ∧ c ≤ '9' then some (c.toNat - 48)
  else if 'a' ≤ c ∧ c ≤ 'f' then some (c.toNat - 87)
  else if 'A' ≤ c ∧ c ≤ 'F' then some (c.toNat - 55)
  else none

/-- Body of a JSON string literal, after the opening quote.  Raw control
characters are rejected (strict mode); `\uXXXX` escapes are supported,
with surrogate pairs combined.  (Python's `str` can hold lone surrogates
and `json.loads` accepts them; the model, whose characters are Unicode
scalar values, rejects a lone surrogate escape — no input in this
development contains one.) -/
def parseJsonStringAux : List Char → List Char → Option (String × List Char)
  | [], _ => none
  | c :: rest, acc =>
    if c = '"' then some (acc.reverse.asString, rest)
    else if c = '\\' then
      match rest with
      | [] => none
      | e :: rest2 =>
        if e = '"' then parseJsonStringAux rest2 ('"' :: acc)
        else if e = '\\' then parseJsonStringAux rest2 ('\\' :: acc)
        else if e = '/' then parseJsonStringAux rest2 ('/' :: acc)
        else if e = 'b' then parseJsonStringAux rest2 ('\x08' :: acc)
        else if e = 'f' then parseJsonStringAux rest2 ('\x0c' :: acc)
        else if e = 'n' then parseJsonStringAux rest2 ('\n' :: acc)
        else if e = 'r' then parseJsonStringAux rest2 ('\x0d' :: acc)
        else if e = 't' then parseJsonStringAux rest2 ('\t' :: acc)
        else if e = 'u' then
          match rest2 with
          | h1 :: h2 :: h3 :: h4 :: rest6 =>
            match hexVal h1, hexVal h2, hexVal h3, hexVal h4 with
            | some v1, some v2, some v3, some v4 =>
              let cp := v1 * 4096 + v2 * 256 + v3 * 16 + v4
              if 0xD800 ≤ cp ∧ cp < 0xDC00 then
                match rest6 with
                | '\\' :: 'u' :: g1 :: g2 :: g3 :: g4 :: rest12 =>
                  match hexVal g1, hexVal g2, hexVal g3, hexVal g4 with
                  | some w1, some w2, some w3, some w4 =>
                    let lo := w1 * 4096 + w2 * 256 + w3 * 16 + w4
                    if 0xDC00 ≤ lo ∧ lo < 0xE000 then
                      parseJsonStringAux rest12
                        (Char.ofNat (0x10000 + (cp - 0xD800) * 1024 + (lo - 0xDC00)) :: acc)
                    else none
                  | _, _, _, _ => none
                | _ => none
              else if 0xDC00 ≤ cp ∧ cp < 0xE000 then none
              else parseJsonStringAux rest6 (Char.ofNat cp :: acc)
            | _, _, _, _ => none
          | _ => none
        else none
    else if c.toNat < 0x20 then none
    else parseJsonStringAux rest (c :: acc)

/-- Value of a decimal digit. -/
def digitVal (c : Char) : Option Nat :=
  if '0' ≤ c ∧ c ≤ '9' then some (c.toNat - 48) else none

/-- Take a maximal run of decimal digits. -/
def takeDigits : List Char → (List Nat × List Char)
  | [] => ([], [])
  | c :: rest =>
    match digitVal c with
    | some d => let p := takeDigits rest; (d :: p.1, p.2)
    | none => ([], c :: rest)

/-- The natural number denoted by a digit run. -/
def natOfDigits (ds : List Nat) : Nat := ds.foldl (fun a d => a * 10 + d) 0

/-- JSON integer literal (leading zeros rejected, as in the JSON grammar);
a following `.`, `e` or `E` would denote a float, which the model rejects. -/
def parseJsonInt (s : List Char) : Option (Int × List Char) :=
  let p : Bool × List Char := match s with | '-' :: t => (true, t) | _ => (false, s)
  match takeDigits p.2 with
  | ([], _) => none
  | (ds, rest) =>
    if ds.length > 1 ∧ ds.headD 0 = 0 then none
    else
      match rest with
      | '.' :: _ => none
      | 'e' :: _ => none
      | 'E' :: _ => none
      | _ =>
        let n : Int := natOfDigits ds
        some (if p.1 then -n else n, rest)

mutual

/-- JSON value parser (strict `json.loads` grammar, integers only). -/
def parseJsonValue : Nat → List Char → Option (JVal × List Char)
  | 0, _ => none
  | fuel + 1, s =>
    match skipJsonWs s with
    | [] => none
    | c :: rest =>
      if c = '"' then
        (parseJsonStringAux rest []).map (fun p => (.str p.1, p.2))
      else if c = '[' then
        match skipJsonWs rest with
        | ']' :: r => some (.arr [], r)
        | r2 => (parseJsonArrayItems fuel r2).map (fun p => (.arr p.1, p.2))
      else if c = '\x7b' then
        match skipJsonWs rest with
        | '\x7d' :: r => some (.obj [], r)
        | r2 => (parseJsonObjectItems fuel r2).map (fun p => (.obj p.1, p.2))
      else
        match c :: rest with
        | 'n' :: 'u' :: 'l' :: 'l' :: r => some (.null, r)
        | 't' :: 'r' :: 'u' :: 'e' :: r => some (.bool true, r)
        | 'f' :: 'a' :: 'l' :: 's' :: 'e' :: r => some (.bool false, r)
        | s2 => (parseJsonInt s2).map (fun p => (.num p.1, p.2))

/-- One-or-more comma-separated array items, then `]`. -/
def parseJsonArrayItems : Nat → List Char → Option (List JVal × List Char)
  | 0, _ => none
  | fuel + 1, s => do
    let (v, r) ← parseJsonValue fuel s
    match skipJsonWs r with
    | ',' :: r2 => do
      let (xs, r3) ← parseJsonArrayItems fuel r2
      pure (v :: xs, r3)
    | ']' :: r2 => pure ([v], r2)
    | _ => none

/-- One-or-more `"key": value` object members, then `}`. -/
def parseJsonObjectItems : Nat → List Char →
    Option (List (String × JVal) × List Char)
  | 0, _ => none
  | fuel + 1, s =>
    match skipJsonWs s with
    | '"' :: r => do
      let (k, r2) ← parseJsonStringAux r []
      match skipJsonWs r2 with
      | ':' :: r3 => do
        let (v, r4) ← parseJsonValue fuel r3
        match skipJsonWs r4 with
        | ',' :: r5 => do
          let (kvs, r6) ← parseJsonObjectItems fuel r5
          pure ((k, v) :: kvs, r6)
        | '\x7d' :: r5 => pure ([(k, v)], r5)
        | _ => none
      | _ => none
    | _ => none

end

/-- Python `json.loads` on a character list (fuel is generous: nesting
depth and item count are both bounded by the input length). -/
def jsonLoadsL (s : List Char) : Option JVal := do
  let (v, rest) ← parseJsonValue (s.length + 1) s
  if (skipJsonWs rest).isEmpty then pure v else none

/-- Python `json.loads` on a string. -/
def jsonLoads (s : String) : Option JVal := jsonLoadsL s.data

/-! ## `_decode_jwt` -/

/-- `_decode_jwt` from `auth.py`.  Faithful to the source line by line:
the token is split on `.` into exactly three parts (a `ValueError`
otherwise); the two `logger.debug(f"...")` calls evaluate their f-strings
eagerly, so the *header* is base64-decoded (standard alphabet, `"=="`
appended) and UTF-8-decoded regardless of log level, and so is the
payload; finally the payload is decoded once more and fed to
`json.loads`.  Any exception on the way makes the function raise
(`none`). -/
def decode_jwt (token : String) : Option JVal :=
  match pySplitDot token with
  | [header, payload, _signature] => do
    let hb ← pyB64Decode (header ++ "==")
    let _ ← utf8DecodeL hb
    let pb ← pyB64Decode (payload ++ "==")
    let ptext ← utf8DecodeL pb
    jsonLoadsL ptext
  | _ => none

/-! ## Datetimes and token validity -/

/-- A Python `datetime`: an absolute instant in microseconds together with
its timezone-awareness flag.  The code always subtracts a "now" of
matching awareness from `expires_at`, so the two clock readings (naive
wall clock and UTC) are passed explicitly where needed. -/
structure PyDatetime where
  us : Int
  aware : Bool
  deriving DecidableEq, Repr

/-- `_is_token_valid`: true iff the token will not expire within 30
seconds.  `now` is read from the clock matching `expires_at`'s
awareness. -/
def is_token_valid (expires_at : PyDatetime) (nowNaive nowUtc : Int) : Bool :=
  let now := if expires_at.aware then nowUtc else nowNaive
  expires_at.us - now > 30 * 1000000

/-! ## Token value objects (`PrusaJwtModel` subclasses) -/

/-- `PrusaAccessToken`. -/
structure PrusaAccessToken where
  raw_token : Option String
  token_id : String
  user_id : Int
  expires_at : PyDatetime
  session_id : String
  app_slug : String
  token_type : String
  connect_id : String
  deriving DecidableEq, Repr

/-- `PrusaRefreshToken`. -/
structure PrusaRefreshToken where
  raw_token : Option String
  token_id : String
  user_id : Int
  expires_at : PyDatetime
  session_id : String
  app_slug : String
  token_type : String
  deriving DecidableEq, Repr

/-- `PrusaIdentityToken`. -/
structure PrusaIdentityToken where
  raw_token : Option String
  token_id : String
  user_id : Int
  expires_at : PyDatetime
  audience : String
  user_info : List (String × JVal)
  issuer : String
  deriving DecidableEq, Repr

/-- pydantic validation of a `str` field (no coercion from other types
in pydantic v2). -/
def pyStrField : JVal → Option String
  | .str s => some s
  | _ => none

/-- A non-empty all-digit run as a natural number. -/
def decimalNat? (s : List Char) : Option Nat :=
  match takeDigits s with
  | (ds, []) => if ds.isEmpty then none else some (natOfDigits ds)
  | _ => none

/-- pydantic (lax) validation of an `int` field: an `int`, or a string
holding a decimal integer. -/
def pyIntField : JVal → Option Int
  | .num n => some n
  | .str s =>
    (match s.data with
     | '-' :: t => (decimalNat? t).map (fun n => -(n : Int))
     | t => (decimalNat? t).map (fun n => (n : Int)))
  | _ => none

/-- pydantic validation of a `datetime` field from a JSON value: a number
is a Unix timestamp in seconds and yields a timezone-aware (UTC)
instant.  (Textual datetime formats are outside the model; every token in
this development carries a numeric `exp`.) -/
def pyDatetimeField : JVal → Option PyDatetime
  | .num n => some ⟨n * 1000000, true⟩
  | _ => none

/-- The `raw_token : str | None = None` field from an optional dictionary
entry. -/
def pyOptStrField : Option JVal → Option (Option String)
  | none => some none
  | some .null => some none
  | some (.str s) => some (some s)
  | some _ => none

/-- pydantic validation of the `user : dict[str, Any]` field. -/
def pyUserInfoField : JVal → Option (List (String × JVal))
  | .obj kvs => some kvs
  | _ => none

/-- pydantic validation of an optional (`T | None`, default `None`)
field: an absent entry or a JSON `null` yields `None`; any other value
must validate as a `T`. -/
def pyOptField {α : Type} (f : JVal → Option α) :
    Option JVal → Option (Option α)
  | none => some none
  | some .null => some none
  | some v => (f v).map some

/-- `PrusaAccessToken` field validation from a claims dictionary
(pydantic aliases `jti`, `sub`, `exp`, `sid`, `app`, `type`; `connect_id`
has no alias).  Extra claims are ignored; a missing or ill-typed required
claim fails validation (`ValidationError`). -/
def PrusaAccessToken.ofClaims (claims : List (String × JVal)) :
    Option PrusaAccessToken := do
  let raw ← pyOptStrField (jsonGet claims "raw_token")
  let tid ← jsonGet claims "jti" >>= pyStrField
  let uid ← jsonGet claims "sub" >>= pyIntField
  let exp ← jsonGet claims "exp" >>= pyDatetimeField
  let sid ← jsonGet claims "sid" >>= pyStrField
  let app ← jsonGet claims "app" >>= pyStrField
  let ty ← jsonGet claims "type" >>= pyStrField
  let cid ← jsonGet claims "connect_id" >>= pyStrField
  pure ⟨raw, tid, uid, exp, sid, app, ty, cid⟩

/-- `PrusaRefreshToken` field validation from a claims dictionary. -/
def PrusaRefreshToken.ofClaims (claims : List (String × JVal)) :
    Option PrusaRefreshToken := do
  let raw ← pyOptStrField (jsonGet claims "raw_token")
  let tid ← jsonGet claims "jti" >>= pyStrField
  let uid ← jsonGet claims "sub" >>= pyIntField
  let exp ← jsonGet claims "exp" >>= pyDatetimeField
  let sid ← jsonGet claims "sid" >>= pyStrField
  let app ← jsonGet claims "app" >>= pyStrField
  let ty ← jsonGet claims "type" >>= pyStrField
  pure ⟨raw, tid, uid, exp, sid, app, ty⟩

/-- `PrusaIdentityToken` field validation from a claims dictionary
(aliases `jti`, `sub`, `exp`, `aud`, `user`, `iss`). -/
def PrusaIdentityToken.ofClaims (claims : List (String × JVal)) :
    Option PrusaIdentityToken := do
  let raw ← pyOptStrField (jsonGet claims "raw_token")
  let tid ← jsonGet claims "jti" >>= pyStrField
  let uid ← jsonGet claims "sub" >>= pyIntField
  let exp ← jsonGet claims "exp" >>= pyDatetimeField
  let aud ← jsonGet claims "aud" >>= pyStrField
  let user ← jsonGet claims "user" >>= pyUserInfoField
  let iss ← jsonGet claims "iss" >>= pyStrField
  pure ⟨raw, tid, uid, exp, aud, user, iss⟩

/-- `PrusaJwtModel.parse_jwt_string` followed by field validation: a raw
JWT string is claims-parsed and `raw_token` is set to the original string
(overwriting any `raw_token` claim); non-dict claims, or any other JSON
shape than a string or dict, fail validation. -/
def PrusaAccessToken.ofJVal : JVal → Option PrusaAccessToken
  | .str s => do
    match ← decode_jwt s with
    | .obj kvs => PrusaAccessToken.ofClaims (jsonSet kvs "raw_token" (.str s))
    | _ => none
  | .obj kvs => PrusaAccessToken.ofClaims kvs
  | _ => none

/-- Raw-string or claims-dict construction of a `PrusaRefreshToken`. -/
def PrusaRefreshToken.ofJVal : JVal → Option PrusaRefreshToken
  | .str s => do
    match ← decode_jwt s with
    | .obj kvs => PrusaRefreshToken.ofClaims (jsonSet kvs "raw_token" (.str s))
    | _ => none
  | .obj kvs => PrusaRefreshToken.ofClaims kvs
  | _ => none

/-- Raw-string or claims-dict construction of a `PrusaIdentityToken`. -/
def PrusaIdentityToken.ofJVal : JVal → Option PrusaIdentityToken
  | .str s => do
    match ← decode_jwt s with
    | .obj kvs => PrusaIdentityToken.ofClaims (jsonSet kvs "raw_token" (.str s))
    | _ => none
  | .obj kvs => PrusaIdentityToken.ofClaims kvs
  | _ => none

/-! ## `PrusaJWTTokenSet` -/

/-- `PrusaJWTTokenSet`. -/
structure PrusaJWTTokenSet where
  access_token : PrusaAccessToken
  refresh_token : Option PrusaRefreshToken
  identity_token : Option PrusaIdentityToken
  expires_in : Option Int
  token_type : Option String
  scope : List String
  shared_session_key : Option String
  deriving DecidableEq, Repr

/-- One conditional entry of the flat dictionary. -/
def optEntry (k : String) (v : Option JVal) : List (String × JVal) :=
  match v with
  | some x => [(k, x)]
  | none => []

/-- The value a raw-token field contributes to the flat dictionary:
emitted only when present and Python-truthy (non-empty). -/
def rawEntryVal : Option String → Option JVal
  | some s => if s.isEmpty then none else some (JVal.str s)
  | none => none

/-- The flat-dictionary value of an *optional* token member: its raw
string when the member is present. -/
def optTokenEntry {α : Type} (rawOf : α → Option String) : Option α → Option JVal
  | some t => rawEntryVal (rawOf t)
  | none => none

/-- `dump_tokens`: the flat persisted representation.  Each `if` of the
source contributes one conditional entry: token raws only when present
and non-empty (Python truthiness), `scope` only when the list is
non-empty (space-joined), `expires_in` / `token_type` /
`shared_session_key` whenever not `None`. -/
def PrusaJWTTokenSet.dump_tokens (ts : PrusaJWTTokenSet) :
    List (String × JVal) :=
  optEntry "access_token" (rawEntryVal ts.access_token.raw_token) ++
  optEntry "refresh_token"
    (optTokenEntry PrusaRefreshToken.raw_token ts.refresh_token) ++
  optEntry "id_token"
    (optTokenEntry PrusaIdentityToken.raw_token ts.identity_token) ++
  optEntry "expires_in" (ts.expires_in.map JVal.num) ++
  optEntry "token_type" (ts.token_type.map JVal.str) ++
  optEntry "scope"
    (if ts.scope.isEmpty then none else some (JVal.str (joinSpace ts.scope))) ++
  optEntry "shared_session_key" (ts.shared_session_key.map JVal.str)

/-- The `scope` BeforeValidator (`v.split() if isinstance(v, str) else v`)
followed by `list[str]` validation; the field defaults to `[]`. -/
def pyScopeField : Option JVal → Option (List String)
  | none => some []
  | some (.str s) => some (pySplitWs s)
  | some (.arr xs) => xs.mapM pyStrField
  | some _ => none

/-- `PrusaJWTTokenSet(**data)`: pydantic validation of the token set from
a flat dictionary.  `access_token` is required; `refresh_token` and
`id_token` (alias of `identity_token`) are optional; unknown keys are
ignored. -/
def PrusaJWTTokenSet.of_dict (d : List (String × JVal)) :
    Option PrusaJWTTokenSet := do
  let access ← jsonGet d "access_token" >>= PrusaAccessToken.ofJVal
  let refresh ← pyOptField PrusaRefreshToken.ofJVal (jsonGet d "refresh_token")
  let identity ← pyOptField PrusaIdentityToken.ofJVal (jsonGet d "id_token")
  let expiresIn ← pyOptField pyIntField (jsonGet d "expires_in")
  let tokenType ← pyOptField pyStrField (jsonGet d "token_type")
  let scope ← pyScopeField (jsonGet d "scope")
  let ssk ← pyOptField pyStrField (jsonGet d "shared_session_key")
  pure ⟨access, refresh, identity, expiresIn, tokenType, scope, ssk⟩

/-! ## `PrusaConnectCredentials` -/

/-- The credentials object: the in-memory token set plus whether a
`token_saver` callback is registered. -/
structure PrusaConnectCredentials where
  tokens : PrusaJWTTokenSet
  has_token_saver : Bool
  deriving DecidableEq, Repr

/-- The `valid` property.  (`self.tokens.access_token` is a pydantic
model instance and therefore always truthy, so the `not ... access_token`
guard in the source never fires.) -/
def PrusaConnectCredentials.valid (c : PrusaConnectCredentials)
    (nowNaive nowUtc : Int) : Bool :=
  is_token_valid c.tokens.access_token.expires_at nowNaive nowUtc

/-- Observable effects of `refresh()`, in program order. -/
inductive RefreshEvent where
  | set_tokens (ts : PrusaJWTTokenSet)
  | saver_call (flat : List (String × JVal))
  deriving DecidableEq, Repr

/-- The failure modes of `refresh()`.  The first three are raised as
`PrusaAuthError`; the last two are exceptions from `resp.json()` /
`dict.update` and from pydantic validation of the merged dictionary,
which propagate uncaught. -/
inductive RefreshError where
  | no_refresh_token
  | refresh_token_expired
  | refresh_failed
  | bad_response_json
  | validation_error
  deriving DecidableEq, Repr

/-- The token endpoint's HTTP response to the refresh POST. -/
structure HttpResponse where
  status_code : Nat
  body : String
  deriving DecidableEq, Repr

/-- Decidable equality for `Except` results. -/
instance {ε α} [DecidableEq ε] [DecidableEq α] : DecidableEq (Except ε α)
  | .ok a, .ok b =>
    match decEq a b with
    | isTrue h => isTrue (by rw [h])
    | isFalse h => isFalse (by intro hh; injection hh; contradiction)
  | .error a, .error b =>
    match decEq a b with
    | isTrue h => isTrue (by rw [h])
    | isFalse h => isFalse (by intro hh; injection hh; contradiction)
  | .ok _, .error _ => isFalse nofun
  | .error _, .ok _ => isFalse nofun

/-- Result of one `refresh()` call: the final in-memory state, the
effects in order, and the outcome. -/
structure RefreshOutcome where
  creds : PrusaConnectCredentials
  events : List RefreshEvent
  result : Except RefreshError Unit
  deriving DecidableEq, Repr

/-- Python `d.update(new)` on a flat dictionary: with last-wins lookup
(`jsonGet`), appending the new members implements the update. -/
def dictUpdate (d new : List (String × JVal)) : List (String × JVal) :=
  d ++ new

/-- `refresh()`, followed line by line.  Network I/O is abstracted by
passing the token endpoint's response; the two clock readings are
explicit.  An empty refresh raw string is Python-falsy and reported as
"no refresh token". -/
def PrusaConnectCredentials.refresh (c : PrusaConnectCredentials)
    (resp : HttpResponse) (nowNaive nowUtc : Int) : RefreshOutcome :=
  match c.tokens.refresh_token with
  | none => ⟨c, [], .error .no_refresh_token⟩
  | some rt =>
    match rt.raw_token with
    | none => ⟨c, [], .error .no_refresh_token⟩
    | some raw =>
      if raw.isEmpty then ⟨c, [], .error .no_refresh_token⟩
      else if ¬ is_token_valid rt.expires_at nowNaive nowUtc then
        ⟨c, [], .error .refresh_token_expired⟩
      else if resp.status_code ≠ 200 then
        ⟨c, [], .error .refresh_failed⟩
      else
        match jsonLoads resp.body with
        | some (.obj new_data) =>
          let current_raw := c.tokens.dump_tokens
          let merged := dictUpdate current_raw new_data
          match PrusaJWTTokenSet.of_dict merged with
          | some ts =>
            ⟨{ c with tokens := ts },
             .set_tokens ts ::
               (if c.has_token_saver then [.saver_call ts.dump_tokens] else []),
             .ok ()⟩
          | none => ⟨c, [], .error .validation_error⟩
        | _ => ⟨c, [], .error .bad_response_json⟩

/-! ## Discovery (`from_env` / `from_file` / `load_default`) -/

/-- The ambient state Discovery reads: the two environment variables and
the platform-default token file. -/
structure DiscoveryWorld where
  env_tokens_json : Option String
  env_token : Option String
  file_present : Bool
  file_content : String
  deriving DecidableEq, Repr

/-- What Discovery can hand back: `_load_tokens` validates a dict into a
token set but stores non-dict JSON data completely unvalidated (its
`else` branch is a plain assignment). -/
inductive LoadedCredentials where
  | parsed (c : PrusaConnectCredentials)
  | unparsed (data : JVal)
  deriving DecidableEq, Repr

/-- `PrusaConnectCredentials(token_info, token_saver)` on JSON data: a
dict is validated (a pydantic `ValidationError` propagates, modelled as
`.error`); any other JSON value is stored unparsed. -/
def mkCredentialsFromJson (data : JVal) (saver : Bool) :
    Except Unit LoadedCredentials :=
  match data with
  | .obj d =>
    match PrusaJWTTokenSet.of_dict d with
    | some ts => .ok (.parsed ⟨ts, saver⟩)
    | none => .error ()
  | v => .ok (.unparsed v)

/-- `from_file`: `FileNotFoundError` and `json.JSONDecodeError` are caught
and yield `None`; other exceptions (e.g. `ValidationError`) propagate.
On success the credentials carry a file-bound saver. -/
def from_file (present : Bool) (content : String) :
    Except Unit (Option LoadedCredentials) :=
  if ¬ present then .ok none
  else
    match jsonLoads content with
    | none => .ok none
    | some data => (mkCredentialsFromJson data true).map some

/-- The `PRUSA_TOKEN` arm of `from_env`: every construction exception is
swallowed (logged) and the function falls through to `None`. -/
def fromEnvRawToken (w : DiscoveryWorld) :
    Except Unit (Option LoadedCredentials) :=
  match w.env_token with
  | some t =>
    if t.isEmpty then .ok none
    else
      match mkCredentialsFromJson (.obj [("access_token", .str t)]) false with
      | .ok lc => .ok (some lc)
      | .error _ => .ok none
  | none => .ok none

/-- `from_env`: `PRUSA_TOKENS_JSON` first (an unset or empty variable is
skipped; malformed JSON is logged and skipped; a `ValidationError` on
well-formed JSON propagates), then `PRUSA_TOKEN`. -/
def from_env (w : DiscoveryWorld) : Except Unit (Option LoadedCredentials) :=
  match w.env_tokens_json with
  | some s =>
    if s.isEmpty then fromEnvRawToken w
    else
      match jsonLoads s with
      | none => fromEnvRawToken w
      | some data => (mkCredentialsFromJson data false).map some
  | none => fromEnvRawToken w

/-- `load_default`: environment first, then the platform-default file
(only when it exists). -/
def load_default (w : DiscoveryWorld) :
    Except Unit (Option LoadedCredentials) :=
  match from_env w with
  | .error e => .error e
  | .ok (some c) => .ok (some c)
  | .ok none =>
    if w.file_present then from_file true w.file_content
    else .ok none

/-! ## SHA-256 (`hashlib.sha256`) and `_generate_pkce` -/

/-- Truncate to 32 bits. -/
def w32 (n : Nat) : Nat := n % 4294967296

/-- 32-bit right rotation (for inputs below `2^32`). -/
def rotr32 (k x : Nat) : Nat := w32 ((x >>> k) ||| (x <<< (32 - k)))

/-- σ₀ message-schedule function. -/
def shaSigma0 (x : Nat) : Nat := (rotr32 7 x ^^^ rotr32 18 x) ^^^ (x >>> 3)

/-- σ₁ message-schedule function. -/
def shaSigma1 (x : Nat) : Nat := (rotr32 17 x ^^^ rotr32 19 x) ^^^ (x >>> 10)

/-- Σ₀ compression function. -/
def shaBigSigma0 (x : Nat) : Nat := (rotr32 2 x ^^^ rotr32 13 x) ^^^ rotr32 22 x

/-- Σ₁ compression function. -/
def shaBigSigma1 (x : Nat) : Nat := (rotr32 6 x ^^^ rotr32 11 x) ^^^ rotr32 25 x

/-- Ch(e, f, g). -/
def shaCh (e f g : Nat) : Nat := (e &&& f) ^^^ ((e ^^^ 4294967295) &&& g)

/-- Maj(a, b, c). -/
def shaMaj (a b c : Nat) : Nat := ((a &&& b) ^^^ (a &&& c)) ^^^ (b &&& c)

/-- The eight SHA-256 working variables. -/
structure Sha256State where
  a : Nat
  b : Nat
  c : Nat
  d : Nat
  e : Nat
  f : Nat
  g : Nat
  h : Nat
  deriving DecidableEq, Repr

/-- The SHA-256 initial hash value (fractional parts of the square roots
of the first eight primes). -/
def sha256InitState : Sha256State :=
  ⟨1779033703, 3144134277, 1013904242, 2773480762,
   1359893119, 2600822924, 528734635, 1541459225⟩

/-- The SHA-256 round constants (fractional parts of the cube roots of
the first 64 primes). -/
def sha256K : List Nat :=
  [1116352408, 1899447441, 3049323471, 3921009573, 961987163, 1508970993,
   2453635748, 2870763221, 3624381080, 310598401, 607225278, 1426881987,
   1925078388, 2162078206, 2614888103, 3248222580, 3835390401, 4022224774,
   264347078, 604807628, 770255983, 1249150122, 1555081692, 1996064986,
   2554220882, 2821834349, 2952996808, 3210313671, 3336571891, 3584528711,
   113926993, 338241895, 666307205, 773529912, 1294757372, 1396182291,
   1695183700, 1986661051, 2177026350, 2456956037, 2730485921, 2820302411,
   3259730800, 3345764771, 3516065817, 3600352804, 4094571909, 275423344,
   430227734, 506948616, 659060556, 883997877, 958139571, 1322822218,
   1537002063, 1747873779, 1955562222, 2024104815, 2227730452, 2361852424,
   2428436474, 2756734187, 3204031479, 3329325298]

/-- A 64-bit big-endian length field. -/
def lengthBytes64 (n : Nat) : List Nat :=
  [n / 72057594037927936 % 256, n / 281474976710656 % 256,
   n / 1099511627776 % 256, n / 4294967296 % 256,
   n / 16777216 % 256, n / 65536 % 256, n / 256 % 256, n % 256]

/-- SHA-256 message padding: `0x80`, zeros to 56 mod 64, then the bit
length. -/
def sha256Pad (msg : List Nat) : List Nat :=
  msg ++ 128 :: List.replicate ((119 - msg.length % 64) % 64) 0 ++
    lengthBytes64 (msg.length * 8)

/-- Big-endian 32-bit words from bytes (the input length is a multiple of
four after padding). -/
def wordsOfBytes : List Nat → List Nat
  | b1 :: b2 :: b3 :: b4 :: rest =>
    (b1 * 16777216 + b2 * 65536 + b3 * 256 + b4) :: wordsOfBytes rest
  | _ => []

/-- Split a word list into 16-word blocks. -/
def toBlocks16 (ws : List Nat) : List (List Nat) :=
  if h : ws = [] then []
  else ws.take 16 :: toBlocks16 (ws.drop 16)
termination_by ws.length
decreasing_by
  have hpos : 0 < ws.length := List.length_pos.mpr h
  simp only [List.length_drop]
  omega

/-- One message-schedule extension step: append `W[i]` for the current
length `i`. -/
def sha256ExtendStep (wAcc : List Nat) : List Nat :=
  let i := wAcc.length
  wAcc ++ [w32 (shaSigma1 (wAcc.getD (i - 2) 0) + wAcc.getD (i - 7) 0 +
                shaSigma0 (wAcc.getD (i - 15) 0) + wAcc.getD (i - 16) 0)]

/-- The 64-word message schedule of a block. -/
def sha256Schedule (block : List Nat) : List Nat :=
  sha256ExtendStep^[48] block

/-- One compression round. -/
def sha256Round (st : Sha256State) (kw : Nat × Nat) : Sha256State :=
  let t1 := w32 (st.h + shaBigSigma1 st.e + shaCh st.e st.f st.g + kw.1 + kw.2)
  let t2 := w32 (shaBigSigma0 st.a + shaMaj st.a st.b st.c)
  ⟨w32 (t1 + t2), st.a, st.b, st.c, w32 (st.d + t1), st.e, st.f, st.g⟩

/-- Compress one 16-word block into the running hash state. -/
def sha256Compress (st : Sha256State) (block : List Nat) : Sha256State :=
  let W := sha256Schedule block
  let r := (sha256K.zip W).foldl sha256Round st
  ⟨w32 (st.a + r.a), w32 (st.b + r.b), w32 (st.c + r.c), w32 (st.d + r.d),
   w32 (st.e + r.e), w32 (st.f + r.f), w32 (st.g + r.g), w32 (st.h + r.h)⟩

/-- Big-endian bytes of one 32-bit word. -/
def word4 (n : Nat) : List Nat :=
  [n / 16777216 % 256, n / 65536 % 256, n / 256 % 256, n % 256]

/-- The 32 digest bytes of a hash state. -/
def sha256DigestBytes (st : Sha256State) : List Nat :=
  word4 st.a ++ word4 st.b ++ word4 st.c ++ word4 st.d ++
  word4 st.e ++ word4 st.f ++ word4 st.g ++ word4 st.h

/-- `hashlib.sha256(msg).digest()`. -/
def sha256 (msg : List Nat) : List Nat :=
  sha256DigestBytes
    ((toBlocks16 (wordsOfBytes (sha256Pad msg))).foldl sha256Compress
      sha256InitState)

/-- `_generate_pkce`, parameterized by the 32 bytes `os.urandom(32)`
produced.  The verifier's characters all lie in the URL-safe base64
alphabet (ASCII), so `verifier.encode("ascii")` is the code-point map. -/
def generate_pkce (randomBytes : List Nat) : String × String :=
  let verifier := (urlsafeB64EncodeNoPad randomBytes).asString
  let challenge :=
    (urlsafeB64EncodeNoPad (sha256 (verifier.data.map Char.toNat))).asString
  (verifier, challenge)

/-! ## Login flow: the post-credentials checkpoint -/

/-- The checkpoint of `interactive_login` right after the credentials
POST (auth.py steps 4): a body containing `class="invalid-feedback"`
raises `PrusaAuthError("Invalid email or password.")`; otherwise, a
response URL containing `/login/totp/` runs `_handle_totp`, whose body
invokes `otp_callback()` exactly once; otherwise the flow proceeds
directly.  The second component counts OTP-callback invocations. -/
def login_check_after_submit (resp_text resp_url : String) :
    Except String Unit × Nat :=
  if pyIn "class=\"invalid-feedback\"" resp_text then
    (.error "Invalid email or password.", 0)
  else if pyIn "/login/totp/" resp_url then
    (.ok (), 1)
  else
    (.ok (), 0)

/-! ## Concrete sample material

Three well-formed compact tokens (header `{}` = `e30`, signature `sig`)
whose payload segments happen to contain neither `-` nor `_`, so they
survive the source's standard-alphabet decode.  Their payloads are the
base64url encodings of compact JSON claim objects. -/

/-- A sample access token: claims
`{"jti":"j0","sub":7,"exp":4102444800,"sid":"sx","app":"ax","type":"access","connect_id":"cx"}`. -/
def sampleAccessRaw : String :=
  "e30.eyJqdGkiOiJqMCIsInN1YiI6NywiZXhwIjo0MTAyNDQ0ODAwLCJzaWQiOiJzeCIsImFwcCI6ImF4IiwidHlwZSI6ImFjY2VzcyIsImNvbm5lY3RfaWQiOiJjeCJ9.sig"

/-- A sample refresh token: claims
`{"jti":"r0","sub":7,"exp":4102444800,"sid":"sx","app":"ax","type":"refresh"}`. -/
def sampleRefreshRaw : String :=
  "e30.eyJqdGkiOiJyMCIsInN1YiI6NywiZXhwIjo0MTAyNDQ0ODAwLCJzaWQiOiJzeCIsImFwcCI6ImF4IiwidHlwZSI6InJlZnJlc2gifQ.sig"

/-- A second sample access token (`jti` `n0`, `exp` one second later),
playing the freshly issued access token of a refresh response. -/
def sampleAccess2Raw : String :=
  "e30.eyJqdGkiOiJuMCIsInN1YiI6NywiZXhwIjo0MTAyNDQ0ODAxLCJzaWQiOiJzeCIsImFwcCI6ImF4IiwidHlwZSI6ImFjY2VzcyIsImNvbm5lY3RfaWQiOiJjeCJ9.sig"

/-- The parsed form of `sampleAccessRaw`. -/
def sampleAccessToken : PrusaAccessToken :=
  ⟨some sampleAccessRaw, "j0", 7, ⟨4102444800000000, true⟩, "sx", "ax",
   "access", "cx"⟩

/-- The parsed form of `sampleRefreshRaw`. -/
def sampleRefreshToken : PrusaRefreshToken :=
  ⟨some sampleRefreshRaw, "r0", 7, ⟨4102444800000000, true⟩, "sx", "ax",
   "refresh"⟩

/-- The parsed form of `sampleAccess2Raw`. -/
def sampleAccess2Token : PrusaAccessToken :=
  ⟨some sampleAccess2Raw, "n0", 7, ⟨4102444801000000, true⟩, "sx", "ax",
   "access", "cx"⟩

/-- `sampleAccessRaw` parses to `sampleAccessToken`. -/
theorem sampleAccessRaw_parses :
    PrusaAccessToken.ofJVal (.str sampleAccessRaw) = some sampleAccessToken := by
  decide

/-- `sampleRefreshRaw` parses to `sampleRefreshToken`. -/
theorem sampleRefreshRaw_parses :
    PrusaRefreshToken.ofJVal (.str sampleRefreshRaw) = some sampleRefreshToken := by
  decide

/-- `sampleAccess2Raw` parses to `sampleAccess2Token`. -/
theorem sampleAccess2Raw_parses :
    PrusaAccessToken.ofJVal (.str sampleAccess2Raw) = some sampleAccess2Token := by
  decide

/-- A sample token set: the sample access and refresh tokens, nothing
else. -/
def sampleTokenSet : PrusaJWTTokenSet :=
  ⟨sampleAccessToken, some sampleRefreshToken, none, none, none, [], none⟩

/-- A sample credential without a persistence callback. -/
def sampleCreds : PrusaConnectCredentials := ⟨sampleTokenSet, false⟩

/-! ## Claim C3: the 30-second validity boundary -/

/-- **C3.**  For every credential whose access token expires exactly `N`
seconds after the current instant — read from the clock matching the
expiry's timezone-awareness: UTC when aware, naive otherwise — both
`_is_token_valid` and the credential's `valid` property return true
exactly when `N > 30`.  In particular `N = 31` is valid while `N = 30`
and `N = 29` are not (the boundary is exclusive). -/
theorem access_token_validity_boundary (c : PrusaConnectCredentials)
    (nowNaive nowUtc N : Int)
    (h : c.tokens.access_token.expires_at.us =
      (if c.tokens.access_token.expires_at.aware then nowUtc else nowNaive) +
        N * 1000000) :
    is_token_valid c.tokens.access_token.expires_at nowNaive nowUtc
        = decide (N > 30) ∧
    c.valid nowNaive nowUtc = decide (N > 30) := by
  have hv : is_token_valid c.tokens.access_token.expires_at nowNaive nowUtc
      = decide (N > 30) := by
    unfold is_token_valid
    cases hA : c.tokens.access_token.expires_at.aware <;>
      simp only [hA, if_true, if_false, Bool.false_eq_true] at h ⊢ <;>
      (apply decide_eq_decide.mpr; omega)
  exact ⟨hv, hv⟩

/-- Witness for C3: the sample credential, UTC clock 31 seconds before
its `exp`. -/
theorem access_token_validity_boundary_witness :
    is_token_valid sampleCreds.tokens.access_token.expires_at 0
        4102444769000000 = decide ((31 : Int) > 30) ∧
    sampleCreds.valid 0 4102444769000000 = decide ((31 : Int) > 30) :=
  access_token_validity_boundary sampleCreds 0 4102444769000000 31 (by decide)

/-! ## Claim C1: the TOTP branch of `interactive_login` -/

/-- **C1 (counterexample).**  A submitted-credentials response whose
final URL (path `/login/totp/`) matches the TOTP condition but whose body
contains the literal `class="invalid-feedback"` marker: the code checks
the body marker *first*, raises `PrusaAuthError("Invalid email or
password.")`, and never invokes the OTP callback — the claim asserts the
callback would be invoked once and no invalid-credentials error raised. -/
theorem totp_with_invalid_feedback_counterexample :
    pyIn "/login/totp/" "https://account.prusa3d.com/login/totp/" = true ∧
    pyIn "class=\"invalid-feedback\"" "<div class=\"invalid-feedback\"></div>"
        = true ∧
    login_check_after_submit "<div class=\"invalid-feedback\"></div>"
        "https://account.prusa3d.com/login/totp/" =
      (.error "Invalid email or password.", 0) :=
  ⟨by decide, by decide, by decide⟩

/-- **C1 (amended).**  For every submitted-credentials response whose URL
contains `/login/totp/` (in particular whenever its path does), the OTP
callback is invoked exactly once and no invalid-credentials error is
raised *provided the body does not contain* `class="invalid-feedback"`;
when the body does contain the marker, the flow instead raises the
invalid-credentials error before reaching the TOTP branch and the
callback is never invoked. -/
theorem totp_callback_invocations (text url : String)
    (hurl : pyIn "/login/totp/" url = true) :
    login_check_after_submit text url =
      if pyIn "class=\"invalid-feedback\"" text = true then
        (Except.error "Invalid email or password.", 0)
      else (Except.ok (), 1) := by
  unfold login_check_after_submit
  cases h : pyIn "class=\"invalid-feedback\"" text <;> simp [h, hurl]

/-- Witness for the amended C1: a marker-free TOTP page. -/
theorem totp_callback_invocations_witness :
    login_check_after_submit "<form name=\"otp\"></form>"
        "https://account.prusa3d.com/login/totp/" =
      if pyIn "class=\"invalid-feedback\"" "<form name=\"otp\"></form>" = true
      then (Except.error "Invalid email or password.", 0)
      else (Except.ok (), 1) :=
  totp_callback_invocations _ _ (by decide)

/-! ## Claim C2: `_decode_jwt` versus base64url -/

/-- The JSON text of a small claim map (`{"k":"???"}`) whose base64url
encoding contains `_`. -/
def c2ClaimsJson : String := "\x7b\"k\":\"???\"\x7d"

/-- The base64url (no padding) encoding of `c2ClaimsJson`. -/
def c2PayloadSeg : String := "eyJrIjoiPz8_In0"

/-- A three-segment compact token carrying that payload. -/
def c2Token : String := "e30." ++ c2PayloadSeg ++ ".sig"

/-- **C2 (the code is wrong).**  The claim map `{"k":"???"}` JSON-encodes
to `c2ClaimsJson`, whose base64url encoding `eyJrIjoiPz8_In0` contains
`_`; forming a compact token from it and running `_decode_jwt` does *not*
reproduce the claim map: the function decodes the payload with
`base64.b64decode` — the *standard* alphabet — which silently discards
the `_`, so the decode yields garbage and the parse raises.  The spec
(base64url), RFC 7515 and the repository's own tests (which build tokens
with `base64.urlsafe_b64encode`) all require the URL-safe alphabet. -/
theorem decode_jwt_is_not_base64url :
    urlsafeB64EncodeNoPad (utf8EncodeL c2ClaimsJson.data) = c2PayloadSeg.data ∧
    jsonLoads c2ClaimsJson = some (.obj [("k", .str "???")]) ∧
    '_' ∈ c2PayloadSeg.data ∧
    decode_jwt c2Token = none :=
  ⟨by decide, by decide, by decide, by decide⟩

/-! ## Claim C4: failure conditions of the claims parser -/

/-- **C4 (counterexample).**  The input `"a.e30.c"` splits into exactly
three parts, and its payload `e30` decodes and parses as the JSON object
`{}` — by the claim, the parser must succeed.  It fails: the eager
f-string in the first `logger.debug` call base64-decodes the *header*
`"a"`, and `b64decode("a==")` raises (one data character cannot be 1 more
than a multiple of 4). -/
theorem decode_jwt_header_decode_counterexample :
    pySplitDot "a.e30.c" = ["a", "e30", "c"] ∧
    (pyB64Decode ("e30" ++ "==")).bind
        (fun pb => (utf8DecodeL pb).bind jsonLoadsL) = some (.obj []) ∧
    pyB64Decode ("a" ++ "==") = none ∧
    decode_jwt "a.e30.c" = none :=
  ⟨by decide, by decide, by decide, by decide⟩

/-- **C4 (amended).**  `_decode_jwt` fails exactly when splitting on `.`
does not yield three parts, or the *header* fails the padded
standard-alphabet base64 decode or is not UTF-8 (it is decoded eagerly by
a logging f-string), or the payload chain — padded standard-alphabet
base64 decode, UTF-8 decode, JSON parse — fails; on every other input it
succeeds and returns the payload's parsed JSON value. -/
theorem decode_jwt_outcome_characterization (token : String) :
    (decode_jwt token = none ↔
      (pySplitDot token).length ≠ 3 ∨
      (∃ hh p s, pySplitDot token = [hh, p, s] ∧
        ((pyB64Decode (hh ++ "==")).bind utf8DecodeL = none ∨
         (pyB64Decode (p ++ "==")).bind
           (fun pb => (utf8DecodeL pb).bind jsonLoadsL) = none))) ∧
    (∀ hh p s, pySplitDot token = [hh, p, s] →
      (pyB64Decode (hh ++ "==")).bind utf8DecodeL ≠ none →
      decode_jwt token =
        (pyB64Decode (p ++ "==")).bind
          (fun pb => (utf8DecodeL pb).bind jsonLoadsL)) := by
  rcases hs : pySplitDot token with _ | ⟨a, _ | ⟨b, _ | ⟨c, _ | ⟨d, t⟩⟩⟩⟩
  · have hd : decode_jwt token = none := by unfold decode_jwt; rw [hs]
    exact ⟨⟨fun _ => Or.inl (by simp), fun _ => hd⟩,
           fun hh p s h => by simp at h⟩
  · have hd : decode_jwt token = none := by unfold decode_jwt; rw [hs]
    exact ⟨⟨fun _ => Or.inl (by simp), fun _ => hd⟩,
           fun hh p s h => by simp at h⟩
  · have hd : decode_jwt token = none := by unfold decode_jwt; rw [hs]
    exact ⟨⟨fun _ => Or.inl (by simp), fun _ => hd⟩,
           fun hh p s h => by simp at h⟩
  · -- exactly three parts
    have hd : decode_jwt token =
        ((pyB64Decode (a ++ "==")).bind utf8DecodeL).bind (fun _ =>
          (pyB64Decode (b ++ "==")).bind
            (fun pb => (utf8DecodeL pb).bind jsonLoadsL)) := by
      unfold decode_jwt
      rw [hs]
      cases hH1 : pyB64Decode (a ++ "==") with
      | none => simp [hH1]
      | some hb =>
        cases hH2 : utf8DecodeL hb with
        | none => simp [hH1, hH2]
        | some hcs => simp [hH1, hH2]
    rcases hH : (pyB64Decode (a ++ "==")).bind utf8DecodeL with _ | hv
    · rw [hH] at hd
      simp only [Option.none_bind] at hd
      refine ⟨⟨fun _ => Or.inr ⟨a, b, c, rfl, Or.inl hH⟩, fun _ => hd⟩, ?_⟩
      intro hh p s h hne
      obtain ⟨rfl, rfl, rfl⟩ : a = hh ∧ b = p ∧ c = s := by simpa using h
      exact absurd hH hne
    · rw [hH] at hd
      simp only [Option.some_bind] at hd
      refine ⟨?_, ?_⟩
      · rw [hd]
        constructor
        · intro hnone
          exact Or.inr ⟨a, b, c, rfl, Or.inr hnone⟩
        · rintro (hlen | ⟨hh, p, s, h, hfail⟩)
          · simp at hlen
          · obtain ⟨rfl, rfl, rfl⟩ : a = hh ∧ b = p ∧ c = s := by simpa using h
            rcases hfail with hfail | hfail
            · rw [hH] at hfail
              exact Option.noConfusion hfail
            · exact hfail
      · intro hh p s h _
        obtain ⟨rfl, rfl, rfl⟩ : a = hh ∧ b = p ∧ c = s := by simpa using h
        exact hd
  · have hd : decode_jwt token = none := by unfold decode_jwt; rw [hs]
    exact ⟨⟨fun _ => Or.inl (by simp), fun _ => hd⟩,
           fun hh p s h => by simp at h⟩

/-- Witness for the amended C4: a concrete three-part token whose header
decodes, where the parser returns exactly the payload chain's result. -/
theorem decode_jwt_outcome_characterization_witness :
    decode_jwt "e30.e30.c" =
      (pyB64Decode ("e30" ++ "==")).bind
        (fun pb => (utf8DecodeL pb).bind jsonLoadsL) :=
  (decode_jwt_outcome_characterization "e30.e30.c").2 "e30" "e30" "c"
    (by decide) (by decide)

/-! ## Claim C5: structure of the PKCE material -/

/-- `getD` at an in-range index is a member. -/
theorem getD_mem : ∀ (l : List Char) (i : Nat) (d : Char), i < l.length →
    l.getD i d ∈ l
  | [], _, _, h => absurd h (by simp)
  | c :: t, 0, d, _ => by simp [List.getD]
  | c :: t, i + 1, d, h => by
    simp only [List.getD_cons_succ]
    exact List.mem_cons_of_mem _ (getD_mem t i d (by simpa using h))

/-- The padding a byte count leaves: none, `==`, or `=`. -/
def b64PadOf : Nat → List Char
  | 0 => []
  | 1 => ['=', '=']
  | _ => ['=']

/-- Number of data (non-padding) characters the encoder emits. -/
def b64BodyLen (n : Nat) : Nat :=
  4 * (n / 3) + (if n % 3 = 0 then 0 else if n % 3 = 1 then 2 else 3)

/-- Structure of the base64 encoder's output: data characters drawn from
the alphabet, followed by the padding determined by the byte count. -/
theorem b64EncodeChunks_structure (alpha : List Char) (h64 : alpha.length = 64) :
    ∀ n (bs : List Nat), bs.length ≤ n →
      ∃ body, b64EncodeChunks alpha bs = body ++ b64PadOf (bs.length % 3) ∧
        (∀ c ∈ body, c ∈ alpha) ∧ body.length = b64BodyLen bs.length := by
  intro n
  induction n with
  | zero =>
    intro bs hlen
    have : bs = [] := List.length_eq_zero.mp (by omega)
    subst this
    exact ⟨[], by simp [b64EncodeChunks, b64PadOf, b64BodyLen]⟩
  | succ n ih =>
    intro bs hlen
    match bs with
    | [] => exact ⟨[], by simp [b64EncodeChunks, b64PadOf, b64BodyLen]⟩
    | [b1] =>
      refine ⟨[alpha.getD (b1 / 4 % 64) 'A', alpha.getD ((b1 % 4) * 16) 'A'],
        by simp [b64EncodeChunks, b64PadOf], ?_, by simp [b64BodyLen]⟩
      intro c hc
      simp only [List.mem_cons, List.not_mem_nil, or_false] at hc
      rcases hc with rfl | rfl
      · exact getD_mem _ _ _ (by rw [h64]; omega)
      · exact getD_mem _ _ _ (by rw [h64]; omega)
    | [b1, b2] =>
      refine ⟨[alpha.getD (b1 / 4 % 64) 'A',
               alpha.getD ((b1 % 4) * 16 + b2 / 16 % 16) 'A',
               alpha.getD ((b2 % 16) * 4) 'A'],
        by simp [b64EncodeChunks, b64PadOf], ?_, by simp [b64BodyLen]⟩
      intro c hc
      simp only [List.mem_cons, List.not_mem_nil, or_false] at hc
      rcases hc with rfl | rfl | rfl
      · exact getD_mem _ _ _ (by rw [h64]; omega)
      · exact getD_mem _ _ _ (by rw [h64]; omega)
      · exact getD_mem _ _ _ (by rw [h64]; omega)
    | b1 :: b2 :: b3 :: rest =>
      obtain ⟨body, hEq, hMem, hLen⟩ := ih rest (by
        simp only [List.length_cons] at hlen; omega)
      have hmod : (b1 :: b2 :: b3 :: rest).length % 3 = rest.length % 3 := by
        simp only [List.length_cons]; omega
      refine ⟨b64EncGroup alpha b1 b2 b3 ++ body, ?_, ?_, ?_⟩
      · rw [show b64EncodeChunks alpha (b1 :: b2 :: b3 :: rest) =
              b64EncGroup alpha b1 b2 b3 ++ b64EncodeChunks alpha rest from rfl,
            hEq, hmod, List.append_assoc]
      · intro c hc
        rcases List.mem_append.mp hc with hc | hc
        · unfold b64EncGroup at hc
          simp only [List.mem_cons, List.not_mem_nil, or_false] at hc
          rcases hc with rfl | rfl | rfl | rfl
          · exact getD_mem _ _ _ (by rw [h64]; omega)
          · exact getD_mem _ _ _ (by rw [h64]; omega)
          · exact getD_mem _ _ _ (by rw [h64]; omega)
          · exact getD_mem _ _ _ (by rw [h64]; omega)
        · exact hMem c hc
      · rw [List.length_append, hLen,
            show (b1 :: b2 :: b3 :: rest).length = rest.length + 3 from by simp,
            show (b64EncGroup alpha b1 b2 b3).length = 4 from by
              simp [b64EncGroup]]
        unfold b64BodyLen
        rw [show (rest.length + 3) % 3 = rest.length % 3 from by omega,
            show (rest.length + 3) / 3 = rest.length / 3 + 1 from by omega]
        have h3 : rest.length % 3 = 0 ∨ rest.length % 3 = 1 ∨
            rest.length % 3 = 2 := by omega
        rcases h3 with h3 | h3 | h3 <;> rw [h3] <;> simp <;> omega

/-- Dropping a prefix that wholly satisfies the predicate. -/
theorem dropWhile_append_all {p : Char → Bool} :
    ∀ l1 l2 : List Char, (∀ c ∈ l1, p c = true) →
      List.dropWhile p (l1 ++ l2) = List.dropWhile p l2
  | [], l2, _ => by simp
  | c :: t, l2, h => by
    have hc : p c = true := h c (by simp)
    simp only [List.cons_append, List.dropWhile_cons, hc, if_true]
    exact dropWhile_append_all t l2 (fun x hx => h x (by simp [hx]))

/-- `rstrip("=")` removes exactly the padding when the data characters
are padding-free. -/
theorem rstripEqL_body_pad (body pad : List Char)
    (hpad : ∀ c ∈ pad, c = '=') (hbody : ∀ c ∈ body, c ≠ '=') :
    rstripEqL (body ++ pad) = body := by
  unfold rstripEqL
  rw [List.reverse_append,
      dropWhile_append_all pad.reverse body.reverse
        (fun c hc => by simp [hpad c (List.mem_reverse.mp hc)])]
  cases hb : body.reverse with
  | nil =>
    have : body = [] := by simpa using congrArg List.reverse hb
    simp [this]
  | cons x xs =>
    have hx : x ≠ '=' := hbody x (List.mem_reverse.mp (by simp [hb]))
    rw [List.dropWhile_cons]
    simp only [hx, beq_iff_eq, if_false, if_neg hx]
    rw [← hb, List.reverse_reverse]

/-- The URL-safe alphabet contains no `=`. -/
theorem b64UrlAlphabet_no_pad : ∀ c ∈ b64UrlAlphabet, c ≠ '=' := by decide

/-- Encoding 32 bytes and stripping padding yields exactly 43 characters,
all from the URL-safe alphabet. -/
theorem urlsafeNoPad_of_32 (bs : List Nat) (h : bs.length = 32) :
    (urlsafeB64EncodeNoPad bs).length = 43 ∧
    ∀ c ∈ urlsafeB64EncodeNoPad bs, c ∈ b64UrlAlphabet := by
  obtain ⟨body, hEq, hMem, hLen⟩ :=
    b64EncodeChunks_structure b64UrlAlphabet (by decide) 32 bs (by omega)
  have hstrip : urlsafeB64EncodeNoPad bs = body := by
    unfold urlsafeB64EncodeNoPad urlsafeB64Encode
    rw [hEq, h]
    exact rstripEqL_body_pad body _ (by decide)
      (fun c hc => b64UrlAlphabet_no_pad c (hMem c hc))
  refine ⟨?_, fun c hc => hMem c (hstrip ▸ hc)⟩
  rw [hstrip, hLen, h]
  decide

/-- The digest always has 32 bytes. -/
theorem sha256_length (m : List Nat) : (sha256 m).length = 32 := by
  simp [sha256, sha256DigestBytes, word4]

/-- **C5.**  For the PKCE pair generated from any 32 random bytes: the
verifier is the base64url-without-padding encoding of those bytes and the
challenge is the base64url-without-padding encoding of the SHA-256 digest
of the ASCII-encoded verifier; the verifier (and the challenge) is
exactly 43 characters, drawn from the URL-safe base64 alphabet
`[A-Za-z0-9_-]`. -/
theorem generate_pkce_spec (rb : List Nat) (h32 : rb.length = 32) :
    (generate_pkce rb).1 = (urlsafeB64EncodeNoPad rb).asString ∧
    (generate_pkce rb).2 =
      (urlsafeB64EncodeNoPad
        (sha256 ((generate_pkce rb).1.data.map Char.toNat))).asString ∧
    (generate_pkce rb).1.length = 43 ∧
    (∀ c ∈ (generate_pkce rb).1.data,
      ('A' ≤ c ∧ c ≤ 'Z') ∨ ('a' ≤ c ∧ c ≤ 'z') ∨ ('0' ≤ c ∧ c ≤ '9') ∨
        c = '-' ∨ c = '_') ∧
    (generate_pkce rb).2.length = 43 := by
  obtain ⟨hvlen, hvmem⟩ := urlsafeNoPad_of_32 rb h32
  obtain ⟨hclen, _⟩ := urlsafeNoPad_of_32
    (sha256 ((urlsafeB64EncodeNoPad rb).asString.data.map Char.toNat))
    (sha256_length _)
  have halpha : ∀ c ∈ b64UrlAlphabet,
      ('A' ≤ c ∧ c ≤ 'Z') ∨ ('a' ≤ c ∧ c ≤ 'z') ∨ ('0' ≤ c ∧ c ≤ '9') ∨
        c = '-' ∨ c = '_' := by decide
  exact ⟨rfl, rfl, hvlen, fun c hc => halpha c (hvmem c hc), hclen⟩

/-- Witness for C5 at the all-zero 32-byte input. -/
theorem generate_pkce_spec_witness :
    (generate_pkce (List.replicate 32 0)).1 =
      (urlsafeB64EncodeNoPad (List.replicate 32 0)).asString ∧
    (generate_pkce (List.replicate 32 0)).2 =
      (urlsafeB64EncodeNoPad
        (sha256 ((generate_pkce (List.replicate 32 0)).1.data.map
          Char.toNat))).asString ∧
    (generate_pkce (List.replicate 32 0)).1.length = 43 ∧
    (∀ c ∈ (generate_pkce (List.replicate 32 0)).1.data,
      ('A' ≤ c ∧ c ≤ 'Z') ∨ ('a' ≤ c ∧ c ≤ 'z') ∨ ('0' ≤ c ∧ c ≤ '9') ∨
        c = '-' ∨ c = '_') ∧
    (generate_pkce (List.replicate 32 0)).2.length = 43 :=
  generate_pkce_spec (List.replicate 32 0) (by decide)

/-! ## Dictionary-lookup lemmas -/

/-- Looking up an appended dictionary: the right part wins (last-wins
semantics). -/
theorem jsonGet_append (l1 l2 : List (String × JVal)) (k : String) :
    jsonGet (l1 ++ l2) k = (jsonGet l2 k).or (jsonGet l1 k) := by
  unfold jsonGet
  rw [List.reverse_append, List.find?_append]
  rcases h : List.find? (fun kv => kv.1 = k) l2.reverse with _ | kv <;>
    simp [Option.orElse, h]

/-- `jsonSet` makes the key visible. -/
theorem jsonGet_set_same (l : List (String × JVal)) (k : String) (v : JVal) :
    jsonGet (jsonSet l k v) k = some v := by
  unfold jsonSet
  rw [jsonGet_append]
  simp [jsonGet, List.find?]

/-- A single-entry update leaves other keys untouched. -/
theorem jsonGet_set_ne (l : List (String × JVal)) (k k' : String) (v : JVal)
    (h : k' ≠ k) : jsonGet (jsonSet l k v) k' = jsonGet l k' := by
  unfold jsonSet
  rw [jsonGet_append]
  simp [jsonGet, List.find?, Ne.symm h]

/-- Lookup in a conditional entry at its own key. -/
theorem jsonGet_optEntry_self (k : String) (v : Option JVal) :
    jsonGet (optEntry k v) k = v := by
  cases v <;> simp [optEntry, jsonGet, List.find?]

/-- Lookup in a conditional entry at a different key. -/
theorem jsonGet_optEntry_ne (k k' : String) (v : Option JVal) (h : k' ≠ k) :
    jsonGet (optEntry k v) k' = none := by
  cases v <;> simp [optEntry, jsonGet, List.find?, Ne.symm h]

/-- Lookup in a conditional entry, decidable form. -/
theorem jsonGet_optEntry (k k' : String) (v : Option JVal) :
    jsonGet (optEntry k v) k' = if k' = k then v else none := by
  by_cases h : k' = k
  · subst h; simp [jsonGet_optEntry_self]
  · simp [jsonGet_optEntry_ne _ _ _ h, h]

/-- The seven lookups of `dump_tokens`, computed. -/
theorem dump_tokens_get (ts : PrusaJWTTokenSet) :
    jsonGet ts.dump_tokens "access_token" =
      rawEntryVal ts.access_token.raw_token ∧
    jsonGet ts.dump_tokens "refresh_token" =
      optTokenEntry PrusaRefreshToken.raw_token ts.refresh_token ∧
    jsonGet ts.dump_tokens "id_token" =
      optTokenEntry PrusaIdentityToken.raw_token ts.identity_token ∧
    jsonGet ts.dump_tokens "expires_in" = ts.expires_in.map JVal.num ∧
    jsonGet ts.dump_tokens "token_type" = ts.token_type.map JVal.str ∧
    jsonGet ts.dump_tokens "scope" =
      (if ts.scope.isEmpty then none
       else some (JVal.str (joinSpace ts.scope))) ∧
    jsonGet ts.dump_tokens "shared_session_key" =
      ts.shared_session_key.map JVal.str := by
  unfold PrusaJWTTokenSet.dump_tokens
  refine ⟨?_, ?_, ?_, ?_, ?_, ?_, ?_⟩ <;>
    simp [jsonGet_append, jsonGet_optEntry]

/-! ## Inversion of `PrusaJWTTokenSet.of_dict` and the raw-token fields -/

/-- A refresh token built from a raw string keeps that string in
`raw_token`. -/
theorem refreshToken_ofJVal_raw (s : String) (t : PrusaRefreshToken)
    (h : PrusaRefreshToken.ofJVal (.str s) = some t) : t.raw_token = some s := by
  simp only [PrusaRefreshToken.ofJVal] at h
  rcases hd : decode_jwt s with _ | claims <;> rw [hd] at h
  · exact Option.noConfusion h
  · rcases claims with _ | b | n | s2 | xs | kvs <;>
      simp only [Option.bind_eq_bind', Option.some_bind] at h <;>
      try exact Option.noConfusion h
    simp only [PrusaRefreshToken.ofClaims, Option.bind_eq_bind',
      Option.bind_eq_some, Option.pure_def, Option.some.injEq] at h
    obtain ⟨raw, hraw, tid, _, uid, _, exp, _, sid, _, app, _, ty, _, hEq⟩ := h
    rw [jsonGet_set_same] at hraw
    have hr : raw = some s := by simpa [pyOptStrField] using hraw.symm
    rw [← hEq, hr]

/-- An access token built from a raw string keeps that string in
`raw_token`. -/
theorem accessToken_ofJVal_raw (s : String) (t : PrusaAccessToken)
    (h : PrusaAccessToken.ofJVal (.str s) = some t) : t.raw_token = some s := by
  simp only [PrusaAccessToken.ofJVal] at h
  rcases hd : decode_jwt s with _ | claims <;> rw [hd] at h
  · exact Option.noConfusion h
  · rcases claims with _ | b | n | s2 | xs | kvs <;>
      simp only [Option.bind_eq_bind', Option.some_bind] at h <;>
      try exact Option.noConfusion h
    simp only [PrusaAccessToken.ofClaims, Option.bind_eq_bind',
      Option.bind_eq_some, Option.pure_def, Option.some.injEq] at h
    obtain ⟨raw, hraw, tid, _, uid, _, exp, _, sid, _, app, _, ty, _, cid, _,
      hEq⟩ := h
    rw [jsonGet_set_same] at hraw
    have hr : raw = some s := by simpa [pyOptStrField] using hraw.symm
    rw [← hEq, hr]

/-- An identity token built from a raw string keeps that string in
`raw_token`. -/
theorem identityToken_ofJVal_raw (s : String) (t : PrusaIdentityToken)
    (h : PrusaIdentityToken.ofJVal (.str s) = some t) : t.raw_token = some s := by
  simp only [PrusaIdentityToken.ofJVal] at h
  rcases hd : decode_jwt s with _ | claims <;> rw [hd] at h
  · exact Option.noConfusion h
  · rcases claims with _ | b | n | s2 | xs | kvs <;>
      simp only [Option.bind_eq_bind', Option.some_bind] at h <;>
      try exact Option.noConfusion h
    simp only [PrusaIdentityToken.ofClaims, Option.bind_eq_bind',
      Option.bind_eq_some, Option.pure_def, Option.some.injEq] at h
    obtain ⟨raw, hraw, tid, _, uid, _, exp, _, aud, _, user, _, iss, _,
      hEq⟩ := h
    rw [jsonGet_set_same] at hraw
    have hr : raw = some s := by simpa [pyOptStrField] using hraw.symm
    rw [← hEq, hr]

/-- Inversion of `PrusaJWTTokenSet.of_dict`: each field of a successfully
validated token set comes from its own lookup. -/
theorem PrusaJWTTokenSet.of_dict_inv (d : List (String × JVal))
    (ts : PrusaJWTTokenSet) (hts : PrusaJWTTokenSet.of_dict d = some ts) :
    (∃ v, jsonGet d "access_token" = some v ∧
      PrusaAccessToken.ofJVal v = some ts.access_token) ∧
    pyOptField PrusaRefreshToken.ofJVal (jsonGet d "refresh_token")
        = some ts.refresh_token ∧
    pyOptField PrusaIdentityToken.ofJVal (jsonGet d "id_token")
        = some ts.identity_token ∧
    pyOptField pyIntField (jsonGet d "expires_in") = some ts.expires_in ∧
    pyOptField pyStrField (jsonGet d "token_type") = some ts.token_type ∧
    pyScopeField (jsonGet d "scope") = some ts.scope ∧
    pyOptField pyStrField (jsonGet d "shared_session_key")
        = some ts.shared_session_key := by
  simp only [PrusaJWTTokenSet.of_dict, Option.bind_eq_bind',
    Option.bind_eq_some, Option.pure_def, Option.some.injEq] at hts
  obtain ⟨access, ⟨v, hv, hacc⟩, refresh, href, identity, hid, expiresIn,
    hexp, tokenType, htt, scope, hsc, ssk, hssk, hEq⟩ := hts
  subst hEq
  exact ⟨⟨v, hv, hacc⟩, href, hid, hexp, htt, hsc, hssk⟩

/-- Lookup in a one-entry dictionary. -/
theorem jsonGet_single (k k' : String) (v : JVal) :
    jsonGet [(k, v)] k' = if k' = k then some v else none := by
  by_cases h : k' = k <;> simp [jsonGet, List.find?, h] <;> simp [Ne.symm h]

/-! ## The shape of `refresh()` -/

/-- Inversion of a successful `refresh()`: the guards passed, the
response body was a JSON object, the merged flat dictionary revalidated,
the in-memory token set was replaced by the result, and the saver (when
registered) received the new flat representation after the update. -/
theorem refresh_success_shape (c : PrusaConnectCredentials)
    (resp : HttpResponse) (nN nU : Int)
    (hok : (c.refresh resp nN nU).result = .ok ()) :
    ∃ rt0 raw0 new_data ts,
      c.tokens.refresh_token = some rt0 ∧
      rt0.raw_token = some raw0 ∧
      raw0.isEmpty = false ∧
      is_token_valid rt0.expires_at nN nU = true ∧
      resp.status_code = 200 ∧
      jsonLoads resp.body = some (.obj new_data) ∧
      PrusaJWTTokenSet.of_dict (dictUpdate c.tokens.dump_tokens new_data)
        = some ts ∧
      (c.refresh resp nN nU).creds = { c with tokens := ts } ∧
      (c.refresh resp nN nU).events =
        .set_tokens ts ::
          (if c.has_token_saver then [.saver_call ts.dump_tokens] else []) := by
  rcases h1 : c.tokens.refresh_token with _ | rt0
  · simp [PrusaConnectCredentials.refresh, h1] at hok
  · rcases h2 : rt0.raw_token with _ | raw0
    · simp [PrusaConnectCredentials.refresh, h1, h2] at hok
    · by_cases h3 : raw0.isEmpty = true
      · simp [PrusaConnectCredentials.refresh, h1, h2, h3] at hok
      · by_cases h4 : is_token_valid rt0.expires_at nN nU = true
        · by_cases h5 : resp.status_code = 200
          · rcases h6 : jsonLoads resp.body with _ | v
            · simp [PrusaConnectCredentials.refresh, h1, h2, h3, h4, h5,
                h6] at hok
            · rcases v with _ | b | n | s | xs | new_data
              · simp [PrusaConnectCredentials.refresh, h1, h2, h3, h4, h5,
                  h6] at hok
              · simp [PrusaConnectCredentials.refresh, h1, h2, h3, h4, h5,
                  h6] at hok
              · simp [PrusaConnectCredentials.refresh, h1, h2, h3, h4, h5,
                  h6] at hok
              · simp [PrusaConnectCredentials.refresh, h1, h2, h3, h4, h5,
                  h6] at hok
              · simp [PrusaConnectCredentials.refresh, h1, h2, h3, h4, h5,
                  h6] at hok
              · rcases h7 : PrusaJWTTokenSet.of_dict
                    (dictUpdate c.tokens.dump_tokens new_data) with _ | ts
                · simp [PrusaConnectCredentials.refresh, h1, h2, h3, h4, h5,
                    h6, h7] at hok
                · refine ⟨rt0, raw0, new_data, ts, rfl, h2, ?_, h4, h5, rfl,
                    h7, ?_, ?_⟩
                  · simpa using h3
                  · simp [PrusaConnectCredentials.refresh, h1, h2, h3, h4, h5,
                      h6, h7]
                  · simp [PrusaConnectCredentials.refresh, h1, h2, h3, h4, h5,
                      h6, h7]
          · simp [PrusaConnectCredentials.refresh, h1, h2, h3, h4, h5] at hok
        · simp [PrusaConnectCredentials.refresh, h1, h2, h3, h4] at hok

/-! ## Claim C10: `refresh()` is atomic on failure -/

/-- **C10.**  Whenever `refresh()` raises — no refresh token or raw
string, failed 30-second validity check, non-200 response, or even the
uncaught response-JSON/merge-validation errors — the credential's
in-memory token set is exactly what it was before the call: no partial
update and no side effect occurs. -/
theorem refresh_atomic_on_failure (c : PrusaConnectCredentials)
    (resp : HttpResponse) (nN nU : Int) (e : RefreshError)
    (herr : (c.refresh resp nN nU).result = .error e) :
    (c.refresh resp nN nU).creds = c ∧
    (c.refresh resp nN nU).events = [] := by
  rcases h1 : c.tokens.refresh_token with _ | rt0
  · simp [PrusaConnectCredentials.refresh, h1]
  · rcases h2 : rt0.raw_token with _ | raw0
    · simp [PrusaConnectCredentials.refresh, h1, h2]
    · by_cases h3 : raw0.isEmpty = true
      · simp [PrusaConnectCredentials.refresh, h1, h2, h3]
      · by_cases h4 : is_token_valid rt0.expires_at nN nU = true
        · by_cases h5 : resp.status_code = 200
          · rcases h6 : jsonLoads resp.body with _ | v
            · simp [PrusaConnectCredentials.refresh, h1, h2, h3, h4, h5, h6]
            · rcases v with _ | b | n | s | xs | new_data
              · simp [PrusaConnectCredentials.refresh, h1, h2, h3, h4, h5, h6]
              · simp [PrusaConnectCredentials.refresh, h1, h2, h3, h4, h5, h6]
              · simp [PrusaConnectCredentials.refresh, h1, h2, h3, h4, h5, h6]
              · simp [PrusaConnectCredentials.refresh, h1, h2, h3, h4, h5, h6]
              · simp [PrusaConnectCredentials.refresh, h1, h2, h3, h4, h5, h6]
              · rcases h7 : PrusaJWTTokenSet.of_dict
                    (dictUpdate c.tokens.dump_tokens new_data) with _ | ts
                · simp [PrusaConnectCredentials.refresh, h1, h2, h3, h4, h5,
                    h6, h7]
                · simp [PrusaConnectCredentials.refresh, h1, h2, h3, h4, h5,
                    h6, h7] at herr
          · simp [PrusaConnectCredentials.refresh, h1, h2, h3, h4, h5]
        · simp [PrusaConnectCredentials.refresh, h1, h2, h3, h4]

/-- A credential with no refresh token at all, for the C10 witness. -/
def sampleCredsNoRefresh : PrusaConnectCredentials :=
  ⟨⟨sampleAccessToken, none, none, none, none, [], none⟩, false⟩

/-- Witness for C10: refreshing with no refresh token fails and changes
nothing. -/
theorem refresh_atomic_on_failure_witness :
    (sampleCredsNoRefresh.refresh ⟨200, ""⟩ 0 0).creds =
      sampleCredsNoRefresh ∧
    (sampleCredsNoRefresh.refresh ⟨200, ""⟩ 0 0).events = [] :=
  refresh_atomic_on_failure sampleCredsNoRefresh ⟨200, ""⟩ 0 0
    .no_refresh_token (by decide)

/-! ## Claim C7: the persistence callback runs once, after the update -/

/-- **C7.**  In every successful `refresh()` on a credential with a
registered persistence callback, the effect trace is exactly: first the
in-memory token-set replacement, then a single callback invocation whose
payload is the flat representation of the post-refresh token set.  The
callback is never invoked before the in-memory update, and never more
than once. -/
theorem refresh_saver_exactly_once_after_update
    (c : PrusaConnectCredentials) (resp : HttpResponse) (nN nU : Int)
    (hsaver : c.has_token_saver = true)
    (hok : (c.refresh resp nN nU).result = .ok ()) :
    (c.refresh resp nN nU).events =
      [.set_tokens (c.refresh resp nN nU).creds.tokens,
       .saver_call (c.refresh resp nN nU).creds.tokens.dump_tokens] := by
  obtain ⟨rt0, raw0, new_data, ts, _, _, _, _, _, _, _, hcreds, hevents⟩ :=
    refresh_success_shape c resp nN nU hok
  rw [hevents, hcreds, hsaver]
  simp

/-- A credential with the sample token set and a registered saver. -/
def sampleCredsSaver : PrusaConnectCredentials := ⟨sampleTokenSet, true⟩

/-- A 200 refresh response carrying only a fresh access token. -/
def sampleRefreshResp : HttpResponse :=
  ⟨200, "\x7b\"access_token\":\"" ++ sampleAccess2Raw ++ "\"\x7d"⟩

/-- Witness for C7: a concrete successful refresh with a saver. -/
theorem refresh_saver_exactly_once_after_update_witness :
    (sampleCredsSaver.refresh sampleRefreshResp 0 0).events =
      [.set_tokens (sampleCredsSaver.refresh sampleRefreshResp 0 0).creds.tokens,
       .saver_call
         (sampleCredsSaver.refresh sampleRefreshResp 0 0).creds.tokens.dump_tokens] :=
  refresh_saver_exactly_once_after_update sampleCredsSaver sampleRefreshResp
    0 0 (by decide) (by decide)

/-! ## Claim C6: the refresh merge preserves an unrotated refresh token -/

/-- **C6.**  If a credential holds a refresh token with raw string `R1`
and `refresh()` succeeds on a 200 response whose JSON body contains only
a new `access_token` `A`, then afterwards the token set still holds a
refresh token whose raw string is `R1`, and its access token's raw string
is `A`: the response was merged over the current flat representation, so
the omitted field was preserved. -/
theorem refresh_preserves_unrotated_refresh_token
    (c : PrusaConnectCredentials) (resp : HttpResponse) (nN nU : Int)
    (rt : PrusaRefreshToken) (R1 A : String)
    (hrt : c.tokens.refresh_token = some rt)
    (hraw : rt.raw_token = some R1)
    (hbody : jsonLoads resp.body = some (.obj [("access_token", .str A)]))
    (hok : (c.refresh resp nN nU).result = .ok ()) :
    (∃ rt', (c.refresh resp nN nU).creds.tokens.refresh_token = some rt' ∧
        rt'.raw_token = some R1) ∧
    (c.refresh resp nN nU).creds.tokens.access_token.raw_token = some A := by
  obtain ⟨rt0, raw0, new_data, ts, hrt0, hraw0, hne0, _, _, h6, h7, hcreds,
    _⟩ := refresh_success_shape c resp nN nU hok
  rw [hrt] at hrt0
  injection hrt0 with hrt0
  subst hrt0
  rw [hraw] at hraw0
  injection hraw0 with hraw0
  subst hraw0
  rw [hbody] at h6
  have hnd : new_data = [("access_token", JVal.str A)] := by
    have := h6.symm
    simpa using this
  subst hnd
  obtain ⟨hAcc, hRef, _⟩ := PrusaJWTTokenSet.of_dict_inv _ _ h7
  have hgetR : jsonGet (dictUpdate c.tokens.dump_tokens
      [("access_token", JVal.str A)]) "refresh_token" = some (.str R1) := by
    unfold dictUpdate
    rw [jsonGet_append, jsonGet_single]
    simp only [if_neg (by decide : ¬("refresh_token" = "access_token")),
      Option.none_or]
    rw [(dump_tokens_get c.tokens).2.1]
    simp [optTokenEntry, hrt, hraw, rawEntryVal, hne0]
  have hgetA : jsonGet (dictUpdate c.tokens.dump_tokens
      [("access_token", JVal.str A)]) "access_token" = some (.str A) := by
    unfold dictUpdate
    rw [jsonGet_append, jsonGet_single]
    simp
  constructor
  · rw [hgetR] at hRef
    have hRef' : (PrusaRefreshToken.ofJVal (.str R1)).map some
        = some ts.refresh_token := hRef
    rcases hmap : PrusaRefreshToken.ofJVal (.str R1) with _ | rt'
    · rw [hmap] at hRef'
      exact Option.noConfusion hRef'
    · rw [hmap] at hRef'
      simp only [Option.map_some', Option.some.injEq] at hRef'
      refine ⟨rt', ?_, refreshToken_ofJVal_raw R1 rt' hmap⟩
      rw [hcreds]
      exact hRef'.symm
  · obtain ⟨v, hv, hacc⟩ := hAcc
    rw [hgetA] at hv
    injection hv with hv
    subst hv
    rw [hcreds]
    exact accessToken_ofJVal_raw A ts.access_token hacc

/-- Witness for C6: the sample credential refreshed with a body holding
only the second sample access token. -/
theorem refresh_preserves_unrotated_refresh_token_witness :
    (∃ rt', (sampleCreds.refresh sampleRefreshResp 0 0).creds.tokens.refresh_token
          = some rt' ∧ rt'.raw_token = some sampleRefreshRaw) ∧
    (sampleCreds.refresh sampleRefreshResp 0 0).creds.tokens.access_token.raw_token
        = some sampleAccess2Raw :=
  refresh_preserves_unrotated_refresh_token sampleCreds sampleRefreshResp 0 0
    sampleRefreshToken sampleRefreshRaw sampleAccess2Raw (by decide) (by decide)
    (by decide) (by decide)

/-! ## Claim C9: Discovery order and fall-through -/

/-- **C9.**  `load_default` consults, in order: the environment JSON
token set, the environment raw access token, then the platform-default
file, returning the credentials from the first source that yields one.
(i) A valid environment JSON token set wins regardless of the file's
presence or contents; (ii) with no environment JSON, a valid raw
environment token wins regardless of the file; (iii) a malformed
environment JSON is treated as "not found" and the flow falls through
(here: to the file, the raw-token variable being unset) without raising;
(iv) a malformed on-disk file likewise yields "not found" without
raising. -/
theorem load_default_discovery_order (w : DiscoveryWorld) :
    (∀ s d ts, w.env_tokens_json = some s → s.isEmpty = false →
      jsonLoads s = some (.obj d) → PrusaJWTTokenSet.of_dict d = some ts →
      load_default w = .ok (some (.parsed ⟨ts, false⟩))) ∧
    (∀ t ts, w.env_tokens_json = none → w.env_token = some t →
      t.isEmpty = false →
      PrusaJWTTokenSet.of_dict [("access_token", .str t)] = some ts →
      load_default w = .ok (some (.parsed ⟨ts, false⟩))) ∧
    (∀ s, w.env_tokens_json = some s → jsonLoads s = none →
      w.env_token = none →
      load_default w =
        (if w.file_present then from_file true w.file_content
         else .ok none)) ∧
    (w.env_tokens_json = none → w.env_token = none → w.file_present = true →
      jsonLoads w.file_content = none → load_default w = .ok none) := by
  refine ⟨?_, ?_, ?_, ?_⟩
  · intro s d ts h1 h2 h3 h4
    simp [load_default, from_env, mkCredentialsFromJson, Except.map, h1, h2, h3, h4]
  · intro t ts h1 h2 h3 h4
    simp [load_default, from_env, fromEnvRawToken, mkCredentialsFromJson,
      Except.map, h1, h2, h3, h4]
  · intro s h1 h2 h3
    by_cases hs : s.isEmpty = true <;>
      simp [load_default, from_env, fromEnvRawToken, h1, h2, h3, hs]
  · intro h1 h2 h3 h4
    simp [load_default, from_env, fromEnvRawToken, from_file, h1, h2, h3, h4]

/-- The environment JSON token set used by the C9 witness. -/
def sampleEnvJson : String :=
  "\x7b\"access_token\":\"" ++ sampleAccessRaw ++ "\"\x7d"

/-- A world with a valid environment JSON *and* a present (but malformed)
file: the environment wins. -/
def sampleDiscoveryWorld : DiscoveryWorld :=
  ⟨some sampleEnvJson, none, true, "not json"⟩

/-- The token set the environment JSON denotes. -/
def sampleEnvTokenSet : PrusaJWTTokenSet :=
  ⟨sampleAccessToken, none, none, none, none, [], none⟩

/-- Witness for C9: the environment JSON wins over the present file. -/
theorem load_default_discovery_order_witness :
    load_default sampleDiscoveryWorld =
      .ok (some (.parsed ⟨sampleEnvTokenSet, false⟩)) :=
  (load_default_discovery_order sampleDiscoveryWorld).1 sampleEnvJson
    [("access_token", .str sampleAccessRaw)] sampleEnvTokenSet rfl (by decide)
    (by decide) (by decide)

/-! ## Claim C8: `dump ∘ parse ∘ dump = dump` -/

/-- Splitting consumes a whitespace-free word into the accumulator. -/
theorem pySplitWsAux_word (w : List Char) :
    ∀ (rest acc : List Char), (∀ c ∈ w, pyIsSpace c = false) →
      pySplitWsAux (w ++ rest) acc = pySplitWsAux rest (w.reverse ++ acc) := by
  induction w with
  | nil => intro rest acc _; simp
  | cons c t ih =>
    intro rest acc hw
    have hc : pyIsSpace c = false := hw c (by simp)
    simp only [List.cons_append, pySplitWsAux, hc, Bool.false_eq_true,
      if_false]
    have hih := ih rest (c :: acc) (fun x hx => hw x (by simp [hx]))
    rw [show pySplitWsAux (t.append rest) (c :: acc)
          = pySplitWsAux (t ++ rest) (c :: acc) from rfl, hih]
    simp [List.append_assoc]

/-- `str.split()` is a left inverse of `" ".join` on lists of non-empty,
whitespace-free words. -/
theorem pySplitWsAux_joinSpaceL (l : List (List Char))
    (h : ∀ w ∈ l, w ≠ [] ∧ ∀ c ∈ w, pyIsSpace c = false) :
    pySplitWsAux (joinSpaceL l) [] = l := by
  induction l with
  | nil => rfl
  | cons w t ih =>
    obtain ⟨hne, hw⟩ := h w (by simp)
    rcases t with _ | ⟨w2, t2⟩
    · have h1 : pySplitWsAux (w ++ []) [] = pySplitWsAux [] (w.reverse ++ []) :=
        pySplitWsAux_word w [] [] hw
      rw [List.append_nil] at h1
      rw [show joinSpaceL [w] = w from rfl, h1]
      simp [pySplitWsAux, List.isEmpty_iff, hne]
    · rw [show joinSpaceL (w :: w2 :: t2) = w ++ ' ' :: joinSpaceL (w2 :: t2)
        from rfl]
      rw [pySplitWsAux_word w (' ' :: joinSpaceL (w2 :: t2)) [] hw]
      have hsp : pyIsSpace ' ' = true := by decide
      have hacc : (w.reverse ++ ([] : List Char)).isEmpty = false := by
        simp [List.isEmpty_iff, hne]
      simp only [pySplitWsAux, hsp, if_true, hacc, Bool.false_eq_true,
        if_false]
      rw [ih (fun x hx => h x (by simp [hx]))]
      simp [hne]

/-- String-level version of the split/join round trip. -/
theorem pySplitWs_joinSpace (l : List String)
    (h : ∀ w ∈ l, w.data ≠ [] ∧ ∀ c ∈ w.data, pyIsSpace c = false) :
    pySplitWs (joinSpace l) = l := by
  unfold pySplitWs joinSpace
  rw [show ((joinSpaceL (l.map String.data)).asString).data
        = joinSpaceL (l.map String.data) from rfl]
  rw [pySplitWsAux_joinSpaceL (l.map String.data) (by
    intro w hw
    obtain ⟨s, hs, rfl⟩ := List.mem_map.mp hw
    exact h s hs)]
  rw [List.map_map]
  have hid : (List.asString ∘ String.data) = id := funext fun _ => rfl
  rw [hid, List.map_id]

/-- One optional token field of the flat dictionary round-trips: parsing
the emitted entry succeeds, and re-dumping the parsed token reproduces
the entry. -/
theorem pyOptField_entry {α : Type} (f : JVal → Option α)
    (rawOf : α → Option String)
    (hf : ∀ s t, f (.str s) = some t → rawOf t = some s)
    (e : Option JVal)
    (he : e = none ∨
      ∃ R t, e = some (.str R) ∧ R.isEmpty = false ∧ f (.str R) = some t) :
    ∃ y, pyOptField f e = some y ∧ optTokenEntry rawOf y = e := by
  rcases he with rfl | ⟨R, t, rfl, hne, hft⟩
  · exact ⟨none, rfl, rfl⟩
  · refine ⟨some t, ?_, ?_⟩
    · simp [pyOptField, hft]
    · simp [optTokenEntry, rawEntryVal, hf R t hft, hne]

/-- **C8 (counterexample).**  The token set with the sample access token
and scope `[""]`: its dump carries `scope: ""`, which re-parses to the
empty scope list, whose dump omits the `scope` key entirely — so
`dump(parse(dump(x))) ≠ dump(x)` although `x` is a perfectly
representable Token Set.  The claim's universal statement is false. -/
theorem dump_parse_dump_counterexample :
    PrusaJWTTokenSet.of_dict
        (PrusaJWTTokenSet.dump_tokens
          ⟨sampleAccessToken, none, none, none, none, [""], none⟩)
      = some sampleEnvTokenSet ∧
    sampleEnvTokenSet.dump_tokens ≠
      PrusaJWTTokenSet.dump_tokens
        ⟨sampleAccessToken, none, none, none, none, [""], none⟩ :=
  ⟨by decide, by decide⟩

/-- **C8 (amended).**  `dump_tokens ∘ of_dict ∘ dump_tokens =
dump_tokens` holds for every Token Set whose access token carries a
non-empty raw string that re-parses, whose refresh and identity tokens'
non-empty raw strings (when present) re-parse, and whose scope entries
are non-empty and whitespace-free.  (A scope entry that is empty or
contains whitespace — impossible for real OAuth scopes but representable
in the model — breaks the equation, because the space-joined dump
re-splits differently.) -/
theorem dump_parse_dump_roundtrip (x : PrusaJWTTokenSet) (A : String)
    (hA : x.access_token.raw_token = some A)
    (hAne : A.isEmpty = false)
    (hAparse : ∃ tA, PrusaAccessToken.ofJVal (.str A) = some tA)
    (hR : ∀ rt R, x.refresh_token = some rt → rt.raw_token = some R →
      R.isEmpty = false → ∃ tR, PrusaRefreshToken.ofJVal (.str R) = some tR)
    (hI : ∀ it I, x.identity_token = some it → it.raw_token = some I →
      I.isEmpty = false → ∃ tI, PrusaIdentityToken.ofJVal (.str I) = some tI)
    (hS : ∀ w ∈ x.scope, w.data ≠ [] ∧ ∀ c ∈ w.data, pyIsSpace c = false) :
    ∃ y, PrusaJWTTokenSet.of_dict x.dump_tokens = some y ∧
      y.dump_tokens = x.dump_tokens := by
  obtain ⟨tA, hAparse⟩ := hAparse
  have g1 : jsonGet x.dump_tokens "access_token" = some (.str A) := by
    rw [(dump_tokens_get x).1, hA]
    simp [rawEntryVal, hAne]
  have heR : optTokenEntry PrusaRefreshToken.raw_token x.refresh_token
        = none ∨
      ∃ R t, optTokenEntry PrusaRefreshToken.raw_token x.refresh_token
          = some (.str R) ∧ R.isEmpty = false ∧
        PrusaRefreshToken.ofJVal (.str R) = some t := by
    rcases hx : x.refresh_token with _ | rt
    · exact Or.inl (by simp [optTokenEntry])
    · rcases hxr : rt.raw_token with _ | R
      · exact Or.inl (by simp [optTokenEntry, rawEntryVal, hxr])
      · by_cases hre : R.isEmpty = true
        · exact Or.inl (by simp [optTokenEntry, rawEntryVal, hxr, hre])
        · obtain ⟨t, ht⟩ := hR rt R hx hxr (by simpa using hre)
          exact Or.inr ⟨R, t, by simp [optTokenEntry, rawEntryVal, hxr, hre],
            by simpa using hre, ht⟩
  have heI : optTokenEntry PrusaIdentityToken.raw_token x.identity_token
        = none ∨
      ∃ R t, optTokenEntry PrusaIdentityToken.raw_token x.identity_token
          = some (.str R) ∧ R.isEmpty = false ∧
        PrusaIdentityToken.ofJVal (.str R) = some t := by
    rcases hx : x.identity_token with _ | it
    · exact Or.inl (by simp [optTokenEntry])
    · rcases hxr : it.raw_token with _ | I
      · exact Or.inl (by simp [optTokenEntry, rawEntryVal, hxr])
      · by_cases hie : I.isEmpty = true
        · exact Or.inl (by simp [optTokenEntry, rawEntryVal, hxr, hie])
        · obtain ⟨t, ht⟩ := hI it I hx hxr (by simpa using hie)
          exact Or.inr ⟨I, t, by simp [optTokenEntry, rawEntryVal, hxr, hie],
            by simpa using hie, ht⟩
  obtain ⟨yR, gR, dR⟩ := pyOptField_entry PrusaRefreshToken.ofJVal
    PrusaRefreshToken.raw_token refreshToken_ofJVal_raw _ heR
  obtain ⟨yI, gI, dI⟩ := pyOptField_entry PrusaIdentityToken.ofJVal
    PrusaIdentityToken.raw_token identityToken_ofJVal_raw _ heI
  have g2 : pyOptField PrusaRefreshToken.ofJVal
      (jsonGet x.dump_tokens "refresh_token") = some yR := by
    rw [(dump_tokens_get x).2.1]; exact gR
  have g3 : pyOptField PrusaIdentityToken.ofJVal
      (jsonGet x.dump_tokens "id_token") = some yI := by
    rw [(dump_tokens_get x).2.2.1]; exact gI
  have g4 : pyOptField pyIntField (jsonGet x.dump_tokens "expires_in")
      = some x.expires_in := by
    rw [(dump_tokens_get x).2.2.2.1]
    rcases x.expires_in with _ | n <;> simp [pyOptField, pyIntField]
  have g5 : pyOptField pyStrField (jsonGet x.dump_tokens "token_type")
      = some x.token_type := by
    rw [(dump_tokens_get x).2.2.2.2.1]
    rcases x.token_type with _ | t <;> simp [pyOptField, pyStrField]
  have g6 : pyScopeField (jsonGet x.dump_tokens "scope") = some x.scope := by
    rw [(dump_tokens_get x).2.2.2.2.2.1]
    by_cases hsc : x.scope.isEmpty = true
    · simp only [hsc, if_true, pyScopeField]
      rw [List.isEmpty_iff.mp hsc]
    · simp only [hsc, Bool.false_eq_true, if_false, pyScopeField]
      rw [pySplitWs_joinSpace x.scope hS]
  have g7 : pyOptField pyStrField
      (jsonGet x.dump_tokens "shared_session_key")
      = some x.shared_session_key := by
    rw [(dump_tokens_get x).2.2.2.2.2.2]
    rcases x.shared_session_key with _ | k <;> simp [pyOptField, pyStrField]
  refine ⟨⟨tA, yR, yI, x.expires_in, x.token_type, x.scope,
    x.shared_session_key⟩, ?_, ?_⟩
  · simp [PrusaJWTTokenSet.of_dict, g1, hAparse, g2, g3, g4, g5, g6, g7]
  · simp only [PrusaJWTTokenSet.dump_tokens]
    rw [accessToken_ofJVal_raw A tA hAparse, hA, dR, dI]

/-- Witness for the amended C8 at the sample token set (access + refresh
tokens, empty scope). -/
theorem dump_parse_dump_roundtrip_witness :
    ∃ y, PrusaJWTTokenSet.of_dict sampleTokenSet.dump_tokens = some y ∧
      y.dump_tokens = sampleTokenSet.dump_tokens := by
  apply dump_parse_dump_roundtrip sampleTokenSet sampleAccessRaw rfl
    (by decide) ⟨sampleAccessToken, by decide⟩
  · intro rt R h1 h2 h3
    have hrt : rt = sampleRefreshToken := by
      have h1' : some sampleRefreshToken = some rt := h1
      injection h1' with h1'
      exact h1'.symm
    subst hrt
    have hR' : R = sampleRefreshRaw := by
      have h2' : some sampleRefreshRaw = some R := h2
      injection h2' with h2'
      exact h2'.symm
    subst hR'
    exact ⟨sampleRefreshToken, by decide⟩
  · intro it I h1 _ _
    exact absurd h1 (by simp [sampleTokenSet])
  · intro w hw
    simp [sampleTokenSet] at hw

end PrusaAuth
